import Mathlib

/-!
# testcontainers-go: request validation and build-plan compilation

A shallow embedding of `container.go` (the `ContainerRequest` validator, the
context packager and `BuildOptions`), followed by theorems about it.

Conventions of the embedding

* A Go `error` is a value of `GoError`; a Go result `error` that may be `nil`
  is `Option GoError`, and a `(T, error)` pair whose value is only used on
  success is `Except GoError T`.
* A Go `map[string]V` is a `GoMap V` (an association list with one entry per
  key); a map that may be `nil` is an `Option (GoMap V)`.
* A Go slice is a `List`; the `nil` slice and the empty slice are both `[]`
  (the source only ever takes their `len`, ranges over them or appends).
* A Go `func` field that may be `nil` is an `Option` of a state transformer:
  `func(*T)` becomes `T → T`.
* Calls that leave the repository (`filepath`, `os`, `archive`, `uuid`,
  `strings.ToLower`, the Dockerfile scanner, credential lookup) are fields of
  `Deps`, so every theorem holds for whatever those calls return.
-/

namespace Testcontainers

/-! ## Errors -/

/-- Package-level sentinel errors used by `validateMounts`. Their declarations
(`var ErrDuplicateMountTarget = errors.New(...)`) are outside `container.go`,
so their message text is a parameter of `GoError.Error`. -/
inductive Sentinel where
  | ErrDuplicateMountTarget
  | ErrInvalidBindMount
  deriving DecidableEq, Repr

/-- Go error values as built in `container.go`. -/
inductive GoError where
  /-- The value of `errors.New(msg)`. -/
  | errorsNew (msg : String)
  /-- A package-level sentinel. -/
  | sentinel (s : Sentinel)
  /-- The value of `fmt.Errorf("%w: %s", inner, arg)`. -/
  | wrapColon (inner : GoError) (arg : String)
  /-- The value of `fmt.Errorf(lead ++ "%w", inner)`. -/
  | wrapLead (lead : String) (inner : GoError)
  /-- An error produced by a call outside the repository. -/
  | foreign (text : String)
  deriving DecidableEq, Repr

/-- The method `Error()`: the message of an error, given the sentinels' text. -/
def GoError.Error (sentinelText : Sentinel → String) : GoError → String
  | .errorsNew msg => msg
  | .sentinel s => sentinelText s
  | .wrapColon inner arg => GoError.Error sentinelText inner ++ ": " ++ arg
  | .wrapLead lead inner => lead ++ GoError.Error sentinelText inner
  | .foreign text => text

/-- The function `errors.Unwrap`: the error a `%w` verb wrapped, if any. -/
def GoError.Unwrap : GoError → Option GoError
  | .wrapColon inner _ => some inner
  | .wrapLead _ inner => some inner
  | _ => none

/-- The function `errors.Is` against a sentinel: walk the `%w` chain. -/
def GoError.Is (target : Sentinel) : GoError → Bool
  | .sentinel s => decide (s = target)
  | .wrapColon inner _ => GoError.Is target inner
  | .wrapLead _ inner => GoError.Is target inner
  | _ => false

/-! ## Go maps -/

/-- A Go `map[string]V`: at most one entry per key. -/
structure GoMap (V : Type) where
  entries : List (String × V)
  deriving DecidableEq, Repr

/-- The map literal `map[string]V{}`. -/
def GoMap.empty {V : Type} : GoMap V := ⟨[]⟩

/-- The two-valued index `v, ok := m[k]`. -/
def GoMap.lookup {V : Type} (m : GoMap V) (k : String) : Option V :=
  (m.entries.find? (fun e => e.1 == k)).map Prod.snd

/-- The assignment `m[k] = v`. -/
def GoMap.store {V : Type} (m : GoMap V) (k : String) (v : V) : GoMap V :=
  ⟨(k, v) :: m.entries.filter (fun e => !(e.1 == k))⟩

/-- The one-valued index `m[k]` on a `map[string]bool`: `false` when absent. -/
def GoMap.index (m : GoMap Bool) (k : String) : Bool :=
  (m.lookup k).getD false

/-! ## strings.Split -/

/-- Split a character list at every occurrence of `sep`; the pieces between
separators, in order (`n` separators give `n + 1` pieces). -/
def splitChars (sep : Char) : List Char → List (List Char)
  | [] => [[]]
  | c :: cs =>
    if c = sep then [] :: splitChars sep cs
    else
      match splitChars sep cs with
      | [] => [[c]]
      | p :: ps => (c :: p) :: ps

/-- The call `strings.Split(s, string(sep))` for a one-character separator.
Go splits the bytes of `s`; for an ASCII separator such as the colon that is
the same as splitting its characters. -/
def stringsSplit (s : String) (sep : Char) : List String :=
  (splitChars sep s.data).map String.mk

/-- The number of colons in a bind string. -/
def colonCount (s : String) : Nat := s.data.count ':'

/-! ## Data model -/

/-- An `io.Reader`, identified by the bytes it yields. -/
structure Reader where
  bytes : List Nat
  deriving DecidableEq, Repr

/-- The type `registry.AuthConfig` (the fields that identify a credential). -/
structure AuthConfig where
  Username : String
  Password : String
  ServerAddress : String
  deriving DecidableEq, Repr

/-- The type `types.ImageBuildOptions`. -/
structure ImageBuildOptions where
  Tags : List String := []
  SuppressOutput : Bool := false
  NoCache : Bool := false
  Remove : Bool := false
  ForceRemove : Bool := false
  PullParent : Bool := false
  Dockerfile : String := ""
  BuildArgs : Option (GoMap (Option String)) := none
  AuthConfigs : Option (GoMap AuthConfig) := none
  Context : Option Reader := none
  Target : String := ""

/-- The type `container.HostConfig`; `validateMounts` reads only `Binds`. -/
structure HostConfig where
  Binds : List String := []
  Privileged : Bool := false
  AutoRemove : Bool := false

/-- Modelled from the spec: the declaration of `ContainerMountTarget` is outside
`container.go`; the spec describes a mount as "an ordered pair of host source
and container target". The field is what the method `Target()` returns. -/
structure ContainerMountTarget where
  Target : String
  deriving DecidableEq, Repr

/-- Modelled from the spec: the declaration of `ContainerMount` is outside
`container.go`; `validateMounts` reads only `m.Target.Target()`. -/
structure ContainerMount where
  Source : String
  Target : ContainerMountTarget
  ReadOnly : Bool := false
  deriving DecidableEq, Repr

/-- The wait strategies `RunContainer` of the OpenLDAP module builds with
`wait.ForAll`, `wait.ForLog` and `wait.ForListeningPort`. -/
inductive WaitStrategy where
  | ForLog (log : String)
  | ForListeningPort (port : String)
  | ForAll (strategies : List WaitStrategy)

/-- The struct `FromDockerfile`. -/
structure FromDockerfile where
  Context : String := ""
  ContextArchive : Option Reader := none
  Dockerfile : String := ""
  Repo : String := ""
  Tag : String := ""
  BuildArgs : Option (GoMap (Option String)) := none
  PrintBuildLog : Bool := false
  KeepImage : Bool := false
  BuildOptionsModifier : Option (ImageBuildOptions → ImageBuildOptions) := none

/-- The struct `ContainerRequest` (the fields `container.go` reads, and some
of the fields it ignores). -/
structure ContainerRequest where
  FromDockerfile : FromDockerfile := {}
  Image : String := ""
  Env : Option (GoMap String) := none
  ExposedPorts : List String := []
  Cmd : List String := []
  Mounts : List ContainerMount := []
  Name : String := ""
  Privileged : Bool := false
  HostConfigModifier : Option (HostConfig → HostConfig) := none
  WaitingFor : Option WaitStrategy := none

/-- An open file handle, as returned by `os.Open`. -/
structure File where
  path : String
  deriving DecidableEq, Repr

/-- The calls `container.go` makes outside the repository's `container.go`. -/
structure Deps where
  /-- The call `filepath.Abs`. -/
  Abs : String → Except GoError String
  /-- The call `filepath.Join` on two elements. -/
  Join : String → String → String
  /-- The call `os.Open`. -/
  Open : String → Except GoError File
  /-- The call `ignorefile.ReadAll`: the patterns and the error, both returned. -/
  ReadAll : File → List String × Option GoError
  /-- The call `archive.TarWithOptions` with the exclusion patterns. -/
  TarWithOptions : String → List String → Except GoError Reader
  /-- The call `core.ExtractImagesFromDockerfile`. -/
  ExtractImagesFromDockerfile :
    String → Option (GoMap (Option String)) → Except GoError (List String)
  /-- The call `DockerImageAuth`: registry and credentials, or an error. -/
  DockerImageAuth : String → Except GoError (String × AuthConfig)
  /-- The call `uuid.NewString`, as a function of how many were drawn before. -/
  NewString : Nat → String
  /-- The call `strings.ToLower`. -/
  ToLower : String → String

/-! ## Validation -/

/-- The method `validateContextAndImage`. -/
def validateContextAndImage (c : ContainerRequest) : Option GoError :=
  if c.FromDockerfile.Context ≠ "" ∧ c.Image ≠ "" then
    some (.errorsNew "you cannot specify both an Image and Context in a ContainerRequest")
  else none

/-- The method `validateContextOrImageIsSpecified`. -/
def validateContextOrImageIsSpecified (c : ContainerRequest) : Option GoError :=
  if c.FromDockerfile.Context = "" ∧ c.FromDockerfile.ContextArchive = none ∧ c.Image = "" then
    some (.errorsNew "you must specify either a build context or an image")
  else none

/-- The first loop of `validateMounts`, over `c.Mounts`: the error, or the
target set once every mount is recorded. -/
def checkMounts (targets : GoMap Bool) : List ContainerMount → Except GoError (GoMap Bool)
  | [] => .ok targets
  | m :: rest =>
    let targetPath := m.Target.Target
    if targets.index targetPath then
      .error (.wrapColon (.sentinel .ErrDuplicateMountTarget) targetPath)
    else
      checkMounts (targets.store targetPath true) rest

/-- The second loop of `validateMounts`, over `hostConfig.Binds`. -/
def checkBinds (targets : GoMap Bool) : List String → Option GoError
  | [] => none
  | bind :: rest =>
    match stringsSplit bind ':' with
    | [_, targetPath] =>
      if targets.index targetPath then
        some (.wrapColon (.sentinel .ErrDuplicateMountTarget) targetPath)
      else
        checkBinds (targets.store targetPath true) rest
    | _ => some (.wrapColon (.sentinel .ErrInvalidBindMount) bind)

/-- The method `validateMounts`. -/
def validateMounts (c : ContainerRequest) : Option GoError :=
  match checkMounts GoMap.empty c.Mounts with
  | .error err => some err
  | .ok targets =>
    match c.HostConfigModifier with
    | none => none
    | some modifier =>
      let hostConfig := modifier {}
      if hostConfig.Binds.length > 0 then checkBinds targets hostConfig.Binds
      else none

/-- The slice `validationMethods` of `Validate`. -/
def validationMethods : List (ContainerRequest → Option GoError) :=
  [validateContextAndImage, validateContextOrImageIsSpecified, validateMounts]

/-- The loop of `Validate`: the first non-nil error, else nil. -/
def runValidation (c : ContainerRequest) : List (ContainerRequest → Option GoError) → Option GoError
  | [] => none
  | validationMethod :: rest =>
    match validationMethod c with
    | some err => some err
    | none => runValidation c rest

/-- The method `Validate`. -/
def Validate (c : ContainerRequest) : Option GoError :=
  runValidation c validationMethods

/-! ## Build context -/

/-- The function `parseDockerIgnore`. -/
def parseDockerIgnore (d : Deps) (targetDir : String) : List String × Option GoError :=
  let fileLocation := d.Join targetDir ".dockerignore"
  match d.Open fileLocation with
  | .ok f =>
    match d.ReadAll f with
    | (excluded, some err) => (excluded, some (.wrapLead "error reading .dockerignore: " err))
    | (excluded, none) => (excluded, none)
  | .error _ => ([], none)

/-- The method `GetContext`: what it returns, and the request after the call
(the method assigns `c.Context`). -/
def GetContext (d : Deps) (c : ContainerRequest) : Except GoError Reader × ContainerRequest :=
  match c.FromDockerfile.ContextArchive with
  | some contextArchive => (.ok contextArchive, c)
  | none =>
    match d.Abs c.FromDockerfile.Context with
    | .error err => (.error (.wrapLead "error getting absolute path: " err), c)
    | .ok abs =>
      let c1 : ContainerRequest := { c with FromDockerfile := { c.FromDockerfile with Context := abs } }
      match parseDockerIgnore d abs with
      | (_, some err) => (.error err, c1)
      | (excluded, none) =>
        match d.TarWithOptions c1.FromDockerfile.Context excluded with
        | .error err => (.error err, c1)
        | .ok buildContext => (.ok buildContext, c1)

/-! ## Accessors -/

/-- The method `GetBuildArgs`. -/
def GetBuildArgs (c : ContainerRequest) : Option (GoMap (Option String)) :=
  c.FromDockerfile.BuildArgs

/-- The method `GetDockerfile`. -/
def GetDockerfile (c : ContainerRequest) : String :=
  let f := c.FromDockerfile.Dockerfile
  if f = "" then "Dockerfile" else f

/-- The method `GetRepo`: the label, and the number of identifiers drawn so far
(`drawn` is that number before the call). -/
def GetRepo (d : Deps) (c : ContainerRequest) (drawn : Nat) : String × Nat :=
  let r := c.FromDockerfile.Repo
  if r = "" then (d.NewString drawn, drawn + 1) else (d.ToLower r, drawn)

/-- The method `GetTag`, with the same convention as `GetRepo`. -/
def GetTag (d : Deps) (c : ContainerRequest) (drawn : Nat) : String × Nat :=
  let t := c.FromDockerfile.Tag
  if t = "" then (d.NewString drawn, drawn + 1) else (d.ToLower t, drawn)

/-- The method `ShouldBuildImage`. -/
def ShouldBuildImage (c : ContainerRequest) : Bool :=
  decide (c.FromDockerfile.Context ≠ "") || c.FromDockerfile.ContextArchive.isSome

/-! ## Registry credentials -/

/-- The loop of `getAuthConfigsFromDockerfile` over the extracted images. -/
def collectAuthConfigs (d : Deps) (authConfigs : GoMap AuthConfig) : List String → GoMap AuthConfig
  | [] => authConfigs
  | image :: rest =>
    match d.DockerImageAuth image with
    | .error _ => collectAuthConfigs d authConfigs rest
    | .ok (registry, authConfig) => collectAuthConfigs d (authConfigs.store registry authConfig) rest

/-- The function `getAuthConfigsFromDockerfile`. -/
def getAuthConfigsFromDockerfile (d : Deps) (c : ContainerRequest) : GoMap AuthConfig :=
  match d.ExtractImagesFromDockerfile (d.Join c.FromDockerfile.Context (GetDockerfile c))
      (GetBuildArgs c) with
  | .error _ => GoMap.empty
  | .ok images => collectAuthConfigs d GoMap.empty images

/-- The loop `for registry, authConfig := range src` with body
`dst[registry] = authConfig`. Go leaves the order of a map range unspecified;
the entries are visited here in stored order, and
`mergeAuthConfigs_any_order` shows every other order gives the same map. -/
def mergeAuthConfigs (dst src : GoMap AuthConfig) : GoMap AuthConfig :=
  src.entries.foldl (fun acc e => acc.store e.1 e.2) dst

/-! ## Build plan -/

/-- What a call of `BuildOptions` leaves behind: the two returned values, the
request after the call and the number of identifiers drawn. -/
structure BuildOutcome where
  options : ImageBuildOptions
  err : Option GoError
  request : ContainerRequest
  drawn : Nat

/-- The literal `types.ImageBuildOptions{Remove: true, ForceRemove: true}` that
`BuildOptions` starts from. -/
def defaultBuildOptions : ImageBuildOptions :=
  { Remove := true, ForceRemove := true }

/-- The build options once `BuildOptionsModifier`, when set, has run on the
defaults (the first statements of `BuildOptions`). -/
def modifiedBuildOptions (c : ContainerRequest) : ImageBuildOptions :=
  match c.FromDockerfile.BuildOptionsModifier with
  | some modifier => modifier defaultBuildOptions
  | none => defaultBuildOptions

/-- The method `BuildOptions`. -/
def BuildOptions (d : Deps) (c : ContainerRequest) (drawn : Nat) : BuildOutcome :=
  let buildOptions := modifiedBuildOptions c
  let buildOptions :=
    { buildOptions with BuildArgs := GetBuildArgs c, Dockerfile := GetDockerfile c }
  match GetContext d c with
  | (.error err, c1) => ⟨buildOptions, some err, c1, drawn⟩
  | (.ok buildContext, c1) =>
    let buildOptions := { buildOptions with Context := some buildContext }
    let authsFromDockerfile := getAuthConfigsFromDockerfile d c1
    let authConfigs :=
      match buildOptions.AuthConfigs with
      | none => GoMap.empty
      | some m => m
    let buildOptions :=
      { buildOptions with AuthConfigs := some (mergeAuthConfigs authConfigs authsFromDockerfile) }
    let repo := GetRepo d c1 drawn
    let tagLabel := GetTag d c1 repo.2
    let tag := repo.1 ++ ":" ++ tagLabel.1
    let buildOptions :=
      if buildOptions.Tags.length > 0 then { buildOptions with Tags := [tag] ++ buildOptions.Tags }
      else { buildOptions with Tags := [tag] }
    ⟨buildOptions, none, c1, tagLabel.2⟩

/-! ## Vocabulary of the statements -/

/-- The error `fmt.Errorf("%w: %s", ErrDuplicateMountTarget, targetPath)`. -/
def duplicateTargetError (targetPath : String) : GoError :=
  .wrapColon (.sentinel .ErrDuplicateMountTarget) targetPath

/-- The error `fmt.Errorf("%w: %s", ErrInvalidBindMount, bind)`. -/
def invalidBindError (bind : String) : GoError :=
  .wrapColon (.sentinel .ErrInvalidBindMount) bind

/-- The container-side targets of the declarative mounts, in list order. -/
def mountTargets (c : ContainerRequest) : List String :=
  c.Mounts.map (fun m => m.Target.Target)

/-- The bind strings the host-config modifier writes into an empty host
configuration; none when there is no modifier. -/
def injectedBinds (c : ContainerRequest) : List String :=
  match c.HostConfigModifier with
  | none => []
  | some modifier => (modifier {}).Binds

/-- The container-side part of a bind string: the piece `parts[1]` of its
split at colons (the empty string when there is no such piece). -/
def bindTarget (bind : String) : String :=
  ((stringsSplit bind ':')[1]?).getD ""

/-- The first element of `ts` that is in `seen` or repeats an earlier element
of `ts`. -/
def firstRepeat (seen : List String) : List String → Option String
  | [] => none
  | t :: ts => if t ∈ seen then some t else firstRepeat (t :: seen) ts

/-- The map `targets` holds `true` exactly at the paths of `seen`. -/
def Represents (targets : GoMap Bool) (seen : List String) : Prop :=
  ∀ t, targets.index t = true ↔ t ∈ seen

/-! ## Example requests -/

/-- A host-config modifier that sets `Binds` to the given strings. -/
def bindsModifier (binds : List String) : HostConfig → HostConfig :=
  fun hostConfig => { hostConfig with Binds := binds }

/-- A request with an image and a context path, two mounts on `/data` and a
modifier injecting a bind string without separator. -/
def requestImageAndContext : ContainerRequest :=
  { Image := "alpine:3", FromDockerfile := { Context := "./app" },
    Mounts := [{ Source := "v1", Target := ⟨"/data"⟩ }, { Source := "v2", Target := ⟨"/data"⟩ }],
    HostConfigModifier := some (bindsModifier ["noseparator"]) }

/-- A request with no image, no context path and no archive, with mounts and a
modifier. -/
def requestNoSource : ContainerRequest :=
  { Mounts := [{ Source := "v1", Target := ⟨"/data"⟩ }],
    HostConfigModifier := some (bindsModifier ["/host:/data"]) }

/-- A request with an image whose mounts target `/a`, `/b`, `/c`, `/b`, `/a`. -/
def requestRepeatedMounts : ContainerRequest :=
  { Image := "alpine:3",
    Mounts := [{ Source := "v1", Target := ⟨"/a"⟩ }, { Source := "v2", Target := ⟨"/b"⟩ },
      { Source := "v3", Target := ⟨"/c"⟩ }, { Source := "v4", Target := ⟨"/b"⟩ },
      { Source := "v5", Target := ⟨"/a"⟩ }],
    HostConfigModifier := some (bindsModifier ["a:b:c"]) }

/-- A request with an image, a mount on `/a` and two injected binds, the
second of which targets `/a` again. -/
def requestBindClash : ContainerRequest :=
  { Image := "alpine:3",
    Mounts := [{ Source := "v1", Target := ⟨"/a"⟩ }],
    HostConfigModifier := some (bindsModifier ["/h1:/b", "/h2:/a"]) }

/-- A request with an image, no mounts and one injected bind string. -/
def requestOneBind (bind : String) : ContainerRequest :=
  { Image := "alpine:3", HostConfigModifier := some (bindsModifier [bind]) }

/-- The calls outside the repository, fixed for the examples: paths resolve
under `/work`, no ignore file exists, the Dockerfile names three images of
which the second has no resolvable credentials, identifiers are `uuid`
followed by a counter in unary, and lower-casing is that of ASCII letters. -/
def exampleDeps : Deps where
  Abs := fun path => .ok ("/work/" ++ path)
  Join := fun dir name => dir ++ "/" ++ name
  Open := fun _ => .error (.foreign "no such file or directory")
  ReadAll := fun _ => ([], none)
  TarWithOptions := fun dir _ => .ok ⟨dir.data.map Char.toNat⟩
  ExtractImagesFromDockerfile := fun _ _ =>
    .ok ["registry.example/base:1", "not an image", "mirror.example/tools:2"]
  DockerImageAuth := fun image =>
    if image = "registry.example/base:1" then
      .ok ("registry.example", ⟨"ci", "from-dockerfile", "registry.example"⟩)
    else if image = "mirror.example/tools:2" then
      .ok ("mirror.example", ⟨"ci", "mirror-secret", "mirror.example"⟩)
    else .error (.foreign "invalid reference")
  NewString := fun drawn => "uuid" ++ String.mk (List.replicate drawn 'i')
  ToLower := fun text => String.mk (text.data.map Char.toLower)

/-- A build request with `BuildArgs = \x7b"VER": "1.2"\x7d` whose modifier sets
`BuildArgs` to the empty map and `Dockerfile` to `Other`. -/
def requestBuildArgs : ContainerRequest :=
  { FromDockerfile :=
      { Context := "app", BuildArgs := some ⟨[("VER", some "1.2")]⟩,
        BuildOptionsModifier := some (fun buildOptions =>
          { buildOptions with BuildArgs := some GoMap.empty, Dockerfile := "Other" }) } }

/-- A build request with `Repo = "MyRepo"`, no tag, and a modifier that appends
the tag `latest`. -/
def requestMyRepo : ContainerRequest :=
  { FromDockerfile :=
      { Context := "app", Repo := "MyRepo",
        BuildOptionsModifier := some (fun buildOptions =>
          { buildOptions with Tags := buildOptions.Tags ++ ["latest"] }) } }

/-- A build request whose modifier switches both cleanup directives off. -/
def requestKeepLayers : ContainerRequest :=
  { FromDockerfile :=
      { Context := "app",
        BuildOptionsModifier := some (fun buildOptions =>
          { buildOptions with Remove := false, ForceRemove := false }) } }

/-- A build request whose modifier supplies credentials for two registries,
one of which the Dockerfile scan also discovers. -/
def requestWithAuth : ContainerRequest :=
  { FromDockerfile :=
      { Context := "app",
        BuildOptionsModifier := some (fun buildOptions =>
          { buildOptions with AuthConfigs := some ⟨[
              ("registry.example", ⟨"me", "from-modifier", "registry.example"⟩),
              ("private.example", ⟨"me", "private-secret", "private.example"⟩)]⟩ }) } }

/-- A request with an image and an in-memory context archive, but no context
path and no mounts. -/
def requestImageAndArchive : ContainerRequest :=
  { Image := "alpine:3", FromDockerfile := { ContextArchive := some ⟨[116, 97, 114]⟩ } }

/-- The request of scenario A: no image, context `./app`, no Dockerfile name. -/
def requestScenarioA : ContainerRequest :=
  { FromDockerfile := { Context := "./app" } }

/-- A request with a context archive and a relative, non-empty context path. -/
def requestArchiveAndPath : ContainerRequest :=
  { FromDockerfile := { Context := "relative/dir", ContextArchive := some ⟨[116, 97, 114]⟩ },
    Mounts := [{ Source := "v1", Target := ⟨"/data"⟩ }] }

/-- Calls outside the repository for which the ignore file exists but cannot
be opened: `os.Open` fails with a permission error. -/
def permissionDeniedDeps : Deps :=
  { exampleDeps with
    Open := fun path => .error (.foreign ("open " ++ path ++ ": permission denied")) }

/-- Calls outside the repository for which the ignore file opens and holds two
patterns, and the archive step fails. -/
def tarFailsDeps : Deps :=
  { exampleDeps with
    Open := fun path => .ok ⟨path⟩
    ReadAll := fun _ => (["*.log", "!keep.log"], none)
    TarWithOptions := fun _ _ => .error (.foreign "cannot walk the context directory") }

/-- Calls outside the repository for which the ignore file opens but does not
parse. -/
def badIgnoreFileDeps : Deps :=
  { exampleDeps with
    Open := fun path => .ok ⟨path⟩
    ReadAll := fun _ => ([], some (.foreign "bad pattern")) }

/-- A request with an image, distinct mounts on `/a` and `/b`, and injected
binds of which the third is malformed and the fourth repeats `/a`. -/
def requestThirdBindMalformed : ContainerRequest :=
  { Image := "alpine:3",
    Mounts := [{ Source := "v1", Target := ⟨"/a"⟩ }, { Source := "v2", Target := ⟨"/b"⟩ }],
    HostConfigModifier := some (bindsModifier ["/h1:/c", "/h2:/d", "/h3", "/h4:/a"]) }

/-- A request with an image, distinct mounts on `/a` and `/b`, and injected
binds of which the second repeats the mount target `/b` and the third is
malformed. -/
def requestSecondBindRepeats : ContainerRequest :=
  { Image := "alpine:3",
    Mounts := [{ Source := "v1", Target := ⟨"/a"⟩ }, { Source := "v2", Target := ⟨"/b"⟩ }],
    HostConfigModifier := some (bindsModifier ["/h1:/c", "/h2:/b", "x:y:z"]) }

/-! ## The OpenLDAP module -/

/-- Modelled from the spec: the declaration of `GenericContainerRequest` is
outside the sources; it embeds the declarative container request, and
`RunContainer` sets its `Started` flag. -/
structure GenericContainerRequest where
  ContainerRequest : ContainerRequest := {}
  Started : Bool := false
  Reuse : Bool := false

/-- Modelled from the spec: the declaration of `CustomizeRequestOption` is
outside the sources; the options of the module are functions taking a
`*GenericContainerRequest`. A value is the request after the call, or `none`
when the call panics. -/
abbrev CustomizeRequestOption := GenericContainerRequest → Option GenericContainerRequest

/-- The statement `req.Env[key] = value`; Go panics on an assignment to an
entry of a nil map. -/
def assignEnv (key value : String) (req : GenericContainerRequest) :
    Option GenericContainerRequest :=
  match req.ContainerRequest.Env with
  | none => none
  | some env =>
    some { req with
      ContainerRequest := { req.ContainerRequest with Env := some (env.store key value) } }

/-- The option `WithAdminUsername`. -/
def WithAdminUsername (username : String) : CustomizeRequestOption :=
  fun req => assignEnv "LDAP_ADMIN_USERNAME" username req

/-- The option `WithAdminPassword`. -/
def WithAdminPassword (password : String) : CustomizeRequestOption :=
  fun req => assignEnv "LDAP_ADMIN_PASSWORD" password req

/-- The option `WithRoot`. -/
def WithRoot (root : String) : CustomizeRequestOption :=
  fun req => assignEnv "LDAP_ROOT" root req

/-- The constant `defaultUser`. -/
def defaultUser : String := "admin"

/-- The constant `defaultPassword`. -/
def defaultPassword : String := "adminpassword"

/-- The constant `defaultRoot`. -/
def defaultRoot : String := "dc=example,dc=org"

/-- The value of `genericContainerReq` in `RunContainer` before the options
are applied. -/
def defaultGenericRequest : GenericContainerRequest :=
  { ContainerRequest :=
      { Image := "bitnami/openldap:2.6.6",
        Env := some ⟨[("LDAP_ADMIN_USERNAME", defaultUser),
          ("LDAP_ADMIN_PASSWORD", defaultPassword), ("LDAP_ROOT", defaultRoot)]⟩,
        ExposedPorts := ["1389/tcp"],
        WaitingFor := some (.ForAll
          [.ForLog "** Starting slapd **", .ForListeningPort "1389/tcp"]) },
    Started := true }

/-- The loop `for _, opt := range opts` with body `opt.Customize(&req)`. -/
def customizeAll (req : GenericContainerRequest) :
    List CustomizeRequestOption → Option GenericContainerRequest
  | [] => some req
  | opt :: rest =>
    match opt req with
    | none => none
    | some req1 => customizeAll req1 rest

/-- A running container, as returned by `GenericContainer`. -/
structure Container where
  id : String
  deriving DecidableEq, Repr

/-- The struct `OpenLDAPContainer`. -/
structure OpenLDAPContainer where
  Container : Container
  deriving DecidableEq, Repr

/-- The function `RunContainer`, given the call `testcontainers.GenericContainer`;
`none` when an option panics. -/
def RunContainer (GenericContainer : GenericContainerRequest → Except GoError Container)
    (opts : List CustomizeRequestOption) : Option (Except GoError OpenLDAPContainer) :=
  match customizeAll defaultGenericRequest opts with
  | none => none
  | some genericContainerReq =>
    match GenericContainer genericContainerReq with
    | .error err => some (.error err)
    | .ok container => some (.ok ⟨container⟩)

/-- The entry of `Env` at `key` in a request that may be missing. -/
def envEntry (req : Option GenericContainerRequest) (key : String) : Option String :=
  req.bind (fun r => r.ContainerRequest.Env.bind (fun env => env.lookup key))

/-- The request with its `Env` taken out, to compare all other fields. -/
def withoutEnv (req : Option GenericContainerRequest) : Option GenericContainerRequest :=
  req.map (fun r => { r with ContainerRequest := { r.ContainerRequest with Env := none } })

/-! ## strings.ToLower -/

/-- The test of `strings.ToLower` that every byte of `s` is below
`utf8.RuneSelf`, that is, that `s` is an ASCII string. -/
def isASCII (s : String) : Bool :=
  s.data.all (fun ch => decide (ch.toNat < 128))

/-- The function `strings.ToLower` of the Go library, given the function
`unicode.ToLower`: in an ASCII string the letters `A` to `Z` are moved by
`'a' - 'A'` and every other byte is kept (what `Char.toLower` does); in any
other string every character is mapped through `unicode.ToLower`. -/
def stringsToLower (unicodeToLower : Char → Char) (s : String) : String :=
  if isASCII s then String.mk (s.data.map Char.toLower)
  else String.mk (s.data.map unicodeToLower)

/-- Every character of `s` is ASCII and none is one of the letters `A` to `Z`:
an ASCII string without upper-case letter. -/
def isLowerASCII (s : String) : Bool :=
  s.data.all (fun ch => decide (ch.toNat < 128) && !ch.isUpper)

/-- The mathematical bold capitals, code points `0x1D400` to `0x1D419`:
upper-case letters (Unicode category `Lu`, so `unicode.IsUpper` holds) for
which Unicode defines no lower-case form. -/
def isMathBoldCapital (ch : Char) : Bool :=
  decide (0x1D400 ≤ ch.toNat ∧ ch.toNat ≤ 0x1D419)

/-- The function `unicode.ToLower` on the characters of the examples: ASCII
letters, and characters for which Unicode defines no lower-case form (such
as the mathematical bold capitals), which it returns unchanged. -/
def unicodeToLowerNoForm (ch : Char) : Char :=
  ch.toLower

/-- The calls of the examples, with `strings.ToLower` spelled out. -/
def unicodeDeps : Deps :=
  { exampleDeps with ToLower := stringsToLower unicodeToLowerNoForm }

/-- A build request whose repository and tag labels are the single letter
with code point `0x1D400`, the mathematical bold capital A. -/
def requestMathBold : ContainerRequest :=
  { FromDockerfile :=
      { Context := "app", Repo := String.mk [Char.ofNat 0x1D400],
        Tag := String.mk [Char.ofNat 0x1D400] } }

/-- No two entries of the map have the same key. -/
def GoMap.UniqueKeys {V : Type} (m : GoMap V) : Prop :=
  (m.entries.map Prod.fst).Nodup

/-! ## Lemmas: maps, splitting, repetition -/

theorem GoMap.lookup_store {V : Type} (m : GoMap V) (k k' : String) (v : V) :
    (m.store k v).lookup k' = if k' = k then some v else m.lookup k' := by
  unfold GoMap.store GoMap.lookup
  by_cases h : k' = k
  · subst h; simp
  · have hk : (k == k') = false := by
      simpa using fun h' : k = k' => h h'.symm
    simp only [List.find?_cons, hk, if_neg h]
    congr 1
    induction m.entries with
    | nil => rfl
    | cons e es ih =>
      by_cases he : e.1 = k
      · simp [List.filter_cons, he, List.find?_cons, hk, ih]
      · by_cases he' : e.1 = k'
        · simp [List.filter_cons, he, List.find?_cons, he', h]
        · simp [List.filter_cons, he, List.find?_cons, he', ih]

theorem GoMap.lookup_empty {V : Type} (k : String) : (GoMap.empty : GoMap V).lookup k = none := rfl

theorem GoMap.index_store (m : GoMap Bool) (k k' : String) :
    (m.store k true).index k' = true ↔ k' = k ∨ m.index k' = true := by
  unfold GoMap.index
  rw [GoMap.lookup_store]
  by_cases h : k' = k <;> simp [h]

theorem represents_empty : Represents GoMap.empty [] := by
  intro t
  simp [GoMap.index, GoMap.lookup_empty]

theorem represents_store {targets : GoMap Bool} {seen : List String}
    (h : Represents targets seen) (t : String) :
    Represents (targets.store t true) (t :: seen) := by
  intro u
  rw [GoMap.index_store, h u]
  simp

theorem splitChars_length (sep : Char) (l : List Char) :
    (splitChars sep l).length = l.count sep + 1 := by
  induction l with
  | nil => rfl
  | cons c cs ih =>
    unfold splitChars
    by_cases h : c = sep
    · subst h; simp [ih]
    · have hc : (c == sep) = false := by simpa using h
      rw [if_neg h, List.count_cons, hc]
      cases hs : splitChars sep cs with
      | nil => rw [hs] at ih; simp at ih
      | cons p ps => rw [hs] at ih; simpa using ih

theorem splitChars_ne_nil (sep : Char) (l : List Char) : splitChars sep l ≠ [] := by
  intro h
  have := splitChars_length sep l
  rw [h] at this
  simp at this

theorem splitChars_intercalate (sep : Char) (l : List Char) :
    [sep].intercalate (splitChars sep l) = l := by
  induction l with
  | nil => rfl
  | cons c cs ih =>
    unfold splitChars
    by_cases h : c = sep
    · subst h
      rw [if_pos rfl]
      cases hs : splitChars c cs with
      | nil => exact absurd hs (splitChars_ne_nil c cs)
      | cons p ps =>
        rw [hs] at ih
        simp only [List.intercalate, List.intersperse_cons_cons, List.flatten_cons,
          List.nil_append, List.singleton_append, List.cons.injEq, true_and]
        simpa [List.intercalate] using ih
    · rw [if_neg h]
      cases hs : splitChars sep cs with
      | nil => exact absurd hs (splitChars_ne_nil sep cs)
      | cons p ps =>
        rw [hs] at ih
        simp only
        cases ps with
        | nil =>
          simp only [List.intercalate, List.intersperse_single, List.flatten_cons, List.flatten_nil,
            List.append_nil] at ih ⊢
          rw [ih]
        | cons q qs =>
          simp only [List.intercalate, List.intersperse_cons_cons, List.flatten_cons,
            List.cons_append] at ih ⊢
          rw [ih]

theorem splitChars_no_sep (sep : Char) (l : List Char) :
    ∀ p ∈ splitChars sep l, sep ∉ p := by
  induction l with
  | nil => simp [splitChars]
  | cons c cs ih =>
    unfold splitChars
    by_cases h : c = sep
    · subst h
      rw [if_pos rfl]
      intro p hp
      rcases List.mem_cons.1 hp with rfl | hp
      · simp
      · exact ih p hp
    · rw [if_neg h]
      cases hs : splitChars sep cs with
      | nil => exact absurd hs (splitChars_ne_nil sep cs)
      | cons q qs =>
        rw [hs] at ih
        intro p hp
        rcases List.mem_cons.1 hp with rfl | hp
        · intro hmem
          rcases List.mem_cons.1 hmem with hc | hq
          · exact h hc.symm
          · exact ih q (List.mem_cons_self _ _) hq
        · exact ih p (List.mem_cons_of_mem _ hp)

theorem stringsSplit_length (s : String) :
    (stringsSplit s ':').length = colonCount s + 1 := by
  simp [stringsSplit, colonCount, splitChars_length]

theorem stringsSplit_of_one_colon {s : String} (h : colonCount s = 1) :
    ∃ hostPart, stringsSplit s ':' = [hostPart, bindTarget s] := by
  have hl := stringsSplit_length s
  rw [h] at hl
  unfold bindTarget
  match hs : stringsSplit s ':', hl with
  | [a, b], _ => exact ⟨a, by simp⟩

theorem stringsSplit_of_not_one_colon {s : String} (h : colonCount s ≠ 1) :
    ∀ a b, stringsSplit s ':' ≠ [a, b] := by
  intro a b hs
  have hl := stringsSplit_length s
  rw [hs] at hl
  simp at hl
  omega

theorem firstRepeat_append (seen a b : List String) :
    firstRepeat seen (a ++ b) =
      match firstRepeat seen a with
      | some p => some p
      | none => firstRepeat (a.reverse ++ seen) b := by
  induction a generalizing seen with
  | nil => simp [firstRepeat]
  | cons t ts ih =>
    simp only [List.cons_append, firstRepeat]
    by_cases h : t ∈ seen
    · simp [h]
    · simp only [if_neg h]
      have h1 := ih (t :: seen)
      have h2 : (t :: ts).reverse ++ seen = ts.reverse ++ t :: seen := by simp
      rw [h2]
      exact h1

theorem firstRepeat_none_iff (seen ts : List String) :
    firstRepeat seen ts = none ↔ ts.Nodup ∧ ∀ t ∈ ts, t ∉ seen := by
  induction ts generalizing seen with
  | nil => simp [firstRepeat]
  | cons t ts ih =>
    simp only [firstRepeat]
    by_cases h : t ∈ seen
    · simp [h]
    · rw [if_neg h, ih]
      simp only [List.nodup_cons, List.mem_cons, not_or]
      constructor
      · rintro ⟨hnd, hall⟩
        refine ⟨⟨fun hmem => (hall t hmem).1 rfl, hnd⟩, ?_⟩
        rintro u (rfl | hu)
        · exact h
        · exact (hall u hu).2
      · rintro ⟨⟨hnot, hnd⟩, hall⟩
        refine ⟨hnd, fun u hu => ⟨?_, hall u (Or.inr hu)⟩⟩
        rintro rfl
        exact hnot hu

theorem firstRepeat_some (seen ts : List String) (p : String)
    (h : firstRepeat seen ts = some p) :
    ∃ pre post, ts = pre ++ p :: post ∧ pre.Nodup ∧ (∀ t ∈ pre, t ∉ seen) ∧
      (p ∈ seen ∨ p ∈ pre) := by
  induction ts generalizing seen with
  | nil => simp [firstRepeat] at h
  | cons t ts ih =>
    simp only [firstRepeat] at h
    by_cases hm : t ∈ seen
    · rw [if_pos hm] at h
      cases h
      exact ⟨[], ts, rfl, List.nodup_nil, by simp, Or.inl hm⟩
    · rw [if_neg hm] at h
      obtain ⟨pre, post, hts, hnd, hdis, hp⟩ := ih (t :: seen) h
      refine ⟨t :: pre, post, by rw [hts]; rfl, ?_, ?_, ?_⟩
      · rw [List.nodup_cons]
        exact ⟨fun hmem => hdis t hmem (List.mem_cons_self _ _), hnd⟩
      · rintro u hu
        rcases List.mem_cons.1 hu with rfl | hu
        · exact hm
        · exact fun hs => hdis u hu (List.mem_cons_of_mem _ hs)
      · rcases hp with hp | hp
        · rcases List.mem_cons.1 hp with rfl | hp
          · exact Or.inr (List.mem_cons_self _ _)
          · exact Or.inl hp
        · exact Or.inr (List.mem_cons_of_mem _ hp)

/-! ## Lemmas: the two loops of validateMounts -/

theorem checkMounts_repeat {targets : GoMap Bool} {seen : List String}
    (hrep : Represents targets seen) (ms : List ContainerMount) (p : String)
    (h : firstRepeat seen (ms.map (fun m => m.Target.Target)) = some p) :
    checkMounts targets ms = .error (duplicateTargetError p) := by
  induction ms generalizing targets seen with
  | nil => simp [firstRepeat] at h
  | cons m ms ih =>
    simp only [List.map_cons, firstRepeat] at h
    unfold checkMounts
    by_cases hm : m.Target.Target ∈ seen
    · rw [if_pos hm] at h
      cases h
      simp [(hrep _).2 hm, duplicateTargetError]
    · rw [if_neg hm] at h
      have hidx : targets.index m.Target.Target = false := by
        cases hi : targets.index m.Target.Target
        · rfl
        · exact absurd ((hrep _).1 hi) hm
      simp only [hidx]
      exact ih (represents_store hrep _) h

theorem checkMounts_no_repeat {targets : GoMap Bool} {seen : List String}
    (hrep : Represents targets seen) (ms : List ContainerMount)
    (h : firstRepeat seen (ms.map (fun m => m.Target.Target)) = none) :
    ∃ targets1, checkMounts targets ms = .ok targets1 ∧
      Represents targets1 ((ms.map (fun m => m.Target.Target)).reverse ++ seen) := by
  induction ms generalizing targets seen with
  | nil => exact ⟨targets, rfl, by simpa using hrep⟩
  | cons m ms ih =>
    simp only [List.map_cons, firstRepeat] at h
    unfold checkMounts
    by_cases hm : m.Target.Target ∈ seen
    · rw [if_pos hm] at h
      cases h
    · rw [if_neg hm] at h
      have hidx : targets.index m.Target.Target = false := by
        cases hi : targets.index m.Target.Target
        · rfl
        · exact absurd ((hrep _).1 hi) hm
      obtain ⟨targets1, hok, hrep1⟩ := ih (represents_store hrep _) h
      refine ⟨targets1, by simpa [hidx] using hok, ?_⟩
      simpa using hrep1

theorem checkBinds_wellformed {targets : GoMap Bool} {seen : List String}
    (hrep : Represents targets seen) (binds : List String)
    (hwf : ∀ b ∈ binds, colonCount b = 1) :
    checkBinds targets binds =
      (firstRepeat seen (binds.map bindTarget)).map duplicateTargetError := by
  induction binds generalizing targets seen with
  | nil => rfl
  | cons b bs ih =>
    obtain ⟨hostPart, hsplit⟩ := stringsSplit_of_one_colon (hwf b (List.mem_cons_self _ _))
    have hwf1 : ∀ x ∈ bs, colonCount x = 1 := fun x hx => hwf x (List.mem_cons_of_mem _ hx)
    unfold checkBinds
    simp only [hsplit, List.map_cons, firstRepeat]
    by_cases hm : bindTarget b ∈ seen
    · simp [(hrep _).2 hm, hm, duplicateTargetError]
    · have hidx : targets.index (bindTarget b) = false := by
        cases hi : targets.index (bindTarget b)
        · rfl
        · exact absurd ((hrep _).1 hi) hm
      simp only [hidx, if_neg hm]
      exact ih (represents_store hrep _) hwf1

/-! ## Theorems: the two source checks -/

/-- C1: a request with a non-empty image and a non-empty context path is
rejected by `Validate` with the context/image-conflict error, whatever its
other fields are. -/
theorem validate_image_and_context (c : ContainerRequest)
    (hImage : c.Image ≠ "") (hContext : c.FromDockerfile.Context ≠ "") :
    Validate c =
      some (.errorsNew "you cannot specify both an Image and Context in a ContainerRequest") := by
  simp [Validate, validationMethods, runValidation, validateContextAndImage, hImage, hContext]

/-- C2: a request with an empty image, an empty context path and no context
archive is rejected by `Validate` with the source-unspecified error, whatever
its mounts and host-config modifier are. -/
theorem validate_nothing_specified (c : ContainerRequest)
    (hImage : c.Image = "") (hContext : c.FromDockerfile.Context = "")
    (hArchive : c.FromDockerfile.ContextArchive = none) :
    Validate c = some (.errorsNew "you must specify either a build context or an image") := by
  simp [Validate, validationMethods, runValidation, validateContextAndImage,
    validateContextOrImageIsSpecified, hImage, hContext, hArchive]

/-- Witness of C1: the example request has an image and a context path (and
also duplicate mounts and a malformed bind), and gets the conflict error. -/
theorem validate_image_and_context_witness :
    requestImageAndContext.Image ≠ "" ∧ requestImageAndContext.FromDockerfile.Context ≠ "" ∧
    Validate requestImageAndContext =
      some (.errorsNew "you cannot specify both an Image and Context in a ContainerRequest") :=
  ⟨by decide, by decide, validate_image_and_context requestImageAndContext (by decide) (by decide)⟩

/-- Witness of C2: the example request has no source at all. -/
theorem validate_nothing_specified_witness :
    requestNoSource.Image = "" ∧ requestNoSource.FromDockerfile.Context = "" ∧
    requestNoSource.FromDockerfile.ContextArchive = none ∧
    Validate requestNoSource =
      some (.errorsNew "you must specify either a build context or an image") :=
  ⟨rfl, rfl, rfl, validate_nothing_specified requestNoSource rfl rfl rfl⟩

/-! ## Theorems: mount targets -/

theorem validateMounts_eq_firstRepeat (c : ContainerRequest)
    (hwf : ∀ b ∈ injectedBinds c, colonCount b = 1) :
    validateMounts c =
      (firstRepeat [] (mountTargets c ++ (injectedBinds c).map bindTarget)).map
        duplicateTargetError := by
  rw [firstRepeat_append]
  unfold validateMounts
  cases hfr : firstRepeat [] (mountTargets c) with
  | some p =>
    rw [checkMounts_repeat represents_empty c.Mounts p hfr]
    rfl
  | none =>
    obtain ⟨targets1, hok, hrep⟩ := checkMounts_no_repeat represents_empty c.Mounts hfr
    rw [hok]
    cases hmod : c.HostConfigModifier with
    | none => simp [injectedBinds, hmod, firstRepeat]
    | some modifier =>
      have hinj : injectedBinds c = (modifier {}).Binds := by simp [injectedBinds, hmod]
      rw [hinj] at hwf ⊢
      simp only
      by_cases hlen : (modifier {}).Binds.length > 0
      · rw [if_pos hlen]
        exact checkBinds_wellformed hrep _ hwf
      · have hnil : (modifier {}).Binds = [] := by
          cases hb : (modifier {}).Binds with
          | nil => rfl
          | cons b bs => rw [hb] at hlen; simp at hlen
        rw [if_neg hlen, hnil]
        rfl

theorem validateMounts_of_mount_repeat (c : ContainerRequest) (p : String)
    (h : firstRepeat [] (mountTargets c) = some p) :
    validateMounts c = some (duplicateTargetError p) := by
  unfold validateMounts
  rw [checkMounts_repeat represents_empty c.Mounts p h]

theorem validate_eq_validateMounts (c : ContainerRequest)
    (h1 : validateContextAndImage c = none) (h2 : validateContextOrImageIsSpecified c = none) :
    Validate c = validateMounts c := by
  simp only [Validate, validationMethods, runValidation, h1, h2]
  cases validateMounts c <;> rfl

/-- C3: when the two source checks pass and two mounts at different indices
have the same container-side target, `Validate` returns the error
`fmt.Errorf("%w: %s", ErrDuplicateMountTarget, p)`, where `p` is the first
mount target in list order that repeats an earlier one (the targets before it
are pairwise distinct and `p` is among them); that error wraps the sentinel and
its message is the sentinel's message, then `": "`, then `p`. -/
theorem validate_duplicate_mount_target (c : ContainerRequest)
    (hCheck1 : validateContextAndImage c = none)
    (hCheck2 : validateContextOrImageIsSpecified c = none)
    (i j : Nat) (m₁ m₂ : ContainerMount) (hij : i ≠ j)
    (hi : c.Mounts[i]? = some m₁) (hj : c.Mounts[j]? = some m₂)
    (hEq : m₁.Target.Target = m₂.Target.Target) :
    ∃ pre p post,
      mountTargets c = pre ++ p :: post ∧ pre.Nodup ∧ p ∈ pre ∧
      Validate c = some (.wrapColon (.sentinel .ErrDuplicateMountTarget) p) ∧
      GoError.Is .ErrDuplicateMountTarget
        (.wrapColon (.sentinel .ErrDuplicateMountTarget) p) = true ∧
      ∀ sentinelText,
        GoError.Error sentinelText (.wrapColon (.sentinel .ErrDuplicateMountTarget) p) =
          sentinelText .ErrDuplicateMountTarget ++ ": " ++ p := by
  have hnd : ¬ (mountTargets c).Nodup := by
    intro hnd
    rw [List.nodup_iff_getElem?_ne_getElem?] at hnd
    have hti : (mountTargets c)[i]? = some m₁.Target.Target := by
      simp [mountTargets, List.getElem?_map, hi]
    have htj : (mountTargets c)[j]? = some m₁.Target.Target := by
      simp [mountTargets, List.getElem?_map, hj, hEq]
    have hli : i < (mountTargets c).length := by
      by_contra hge
      rw [List.getElem?_eq_none (by omega)] at hti
      cases hti
    have hlj : j < (mountTargets c).length := by
      by_contra hge
      rw [List.getElem?_eq_none (by omega)] at htj
      cases htj
    rcases Nat.lt_or_gt_of_ne hij with hlt | hgt
    · exact hnd i j hlt hlj (hti.trans htj.symm)
    · exact hnd j i hgt hli (htj.trans hti.symm)
  cases hfr : firstRepeat [] (mountTargets c) with
  | none =>
    exact absurd ((firstRepeat_none_iff [] _).1 hfr).1 hnd
  | some p =>
    obtain ⟨pre, post, hsplit, hpre, -, hp⟩ := firstRepeat_some [] _ p hfr
    have hp1 : p ∈ pre := by
      rcases hp with hp | hp
      · simp at hp
      · exact hp
    refine ⟨pre, p, post, hsplit, hpre, hp1, ?_, rfl, fun _ => rfl⟩
    rw [validate_eq_validateMounts c hCheck1 hCheck2, validateMounts_of_mount_repeat c p hfr]
    rfl

/-- Witness of C3: mounts targeting `/a`, `/b`, `/c`, `/b`, `/a` (indices 0 and
4 collide); the error names `/b`, the first target that repeats an earlier
one, although the modifier also injects a malformed bind. -/
theorem validate_duplicate_mount_target_witness :
    Validate requestRepeatedMounts =
      some (.wrapColon (.sentinel .ErrDuplicateMountTarget) "/b") ∧
    ∃ pre p post,
      mountTargets requestRepeatedMounts = pre ++ p :: post ∧ pre.Nodup ∧ p ∈ pre ∧
      Validate requestRepeatedMounts = some (.wrapColon (.sentinel .ErrDuplicateMountTarget) p) ∧
      GoError.Is .ErrDuplicateMountTarget
        (.wrapColon (.sentinel .ErrDuplicateMountTarget) p) = true ∧
      ∀ sentinelText,
        GoError.Error sentinelText (.wrapColon (.sentinel .ErrDuplicateMountTarget) p) =
          sentinelText .ErrDuplicateMountTarget ++ ": " ++ p :=
  ⟨by decide,
    validate_duplicate_mount_target requestRepeatedMounts (by decide) (by decide) 0 4
      { Source := "v1", Target := ⟨"/a"⟩ } { Source := "v5", Target := ⟨"/a"⟩ }
      (by decide) rfl rfl rfl⟩

/-- C4: when every bind string the host-config modifier injects has exactly one
colon (in particular when there is no modifier), `validateMounts` returns nil
exactly when the mount targets followed by the binds' container-side parts
contain no repeated path; when they contain one, it returns the
duplicate-target error naming the first path of that sequence that repeats an
earlier one; and pairwise-distinct mount targets with no injected bind give
nil. -/
theorem validateMounts_unique_targets (c : ContainerRequest)
    (hwf : ∀ b ∈ injectedBinds c, colonCount b = 1) :
    (validateMounts c = none ↔
      (mountTargets c ++ (injectedBinds c).map bindTarget).Nodup) ∧
    (¬ (mountTargets c ++ (injectedBinds c).map bindTarget).Nodup →
      ∃ pre p post,
        mountTargets c ++ (injectedBinds c).map bindTarget = pre ++ p :: post ∧
        pre.Nodup ∧ p ∈ pre ∧
        validateMounts c = some (.wrapColon (.sentinel .ErrDuplicateMountTarget) p)) ∧
    (injectedBinds c = [] → (mountTargets c).Nodup → validateMounts c = none) := by
  have heq := validateMounts_eq_firstRepeat c hwf
  have hiff : validateMounts c = none ↔
      (mountTargets c ++ (injectedBinds c).map bindTarget).Nodup := by
    rw [heq, Option.map_eq_none', firstRepeat_none_iff]
    simp
  refine ⟨hiff, ?_, ?_⟩
  · intro hnd
    cases hfr : firstRepeat [] (mountTargets c ++ (injectedBinds c).map bindTarget) with
    | none => exact absurd ((firstRepeat_none_iff [] _).1 hfr).1 hnd
    | some p =>
      obtain ⟨pre, post, hsplit, hpre, -, hp⟩ := firstRepeat_some [] _ p hfr
      have hp1 : p ∈ pre := by
        rcases hp with hp | hp
        · simp at hp
        · exact hp
      refine ⟨pre, p, post, hsplit, hpre, hp1, ?_⟩
      rw [heq, hfr]
      rfl
  · intro hnone hnd
    rw [hiff, hnone]
    simpa using hnd

/-- Witness of C4: a mount on `/a` and injected binds `/h1:/b`, `/h2:/a`, all
well-formed; the sequence `/a`, `/b`, `/a` repeats `/a`, and the error names
it. -/
theorem validateMounts_unique_targets_witness :
    (∀ b ∈ injectedBinds requestBindClash, colonCount b = 1) ∧
    mountTargets requestBindClash ++ (injectedBinds requestBindClash).map bindTarget
      = ["/a", "/b", "/a"] ∧
    validateMounts requestBindClash =
      some (.wrapColon (.sentinel .ErrDuplicateMountTarget) "/a") ∧
    (validateMounts requestBindClash = none ↔
      (mountTargets requestBindClash ++
        (injectedBinds requestBindClash).map bindTarget).Nodup) :=
  ⟨by decide, by decide, by decide,
    (validateMounts_unique_targets requestBindClash (by decide)).1⟩

/-- C5: for a request with no declarative mounts whose modifier injects exactly
one bind string `s`, `validateMounts` returns an error wrapping
`ErrInvalidBindMount` exactly when `s` does not have exactly one colon, that
error being `fmt.Errorf("%w: %s", ErrInvalidBindMount, s)` (message: the
sentinel's message, `": "`, then `s`); with exactly one colon it returns nil. -/
theorem validateMounts_single_bind (c : ContainerRequest)
    (modifier : HostConfig → HostConfig) (s : String)
    (hMounts : c.Mounts = []) (hMod : c.HostConfigModifier = some modifier)
    (hBinds : (modifier {}).Binds = [s]) :
    ((∃ e, validateMounts c = some e ∧ GoError.Is .ErrInvalidBindMount e = true) ↔
      colonCount s ≠ 1) ∧
    (colonCount s ≠ 1 →
      validateMounts c = some (.wrapColon (.sentinel .ErrInvalidBindMount) s)) ∧
    (colonCount s = 1 → validateMounts c = none) ∧
    (∀ sentinelText,
      GoError.Error sentinelText (.wrapColon (.sentinel .ErrInvalidBindMount) s) =
        sentinelText .ErrInvalidBindMount ++ ": " ++ s) := by
  have hbad : colonCount s ≠ 1 →
      validateMounts c = some (.wrapColon (.sentinel .ErrInvalidBindMount) s) := by
    intro h
    have hsplit := stringsSplit_of_not_one_colon h
    unfold validateMounts
    simp only [hMounts, checkMounts, hMod, hBinds, List.length_singleton, gt_iff_lt,
      Nat.lt_one_iff, Nat.pos_of_ne_zero, if_true]
    unfold checkBinds
    split
    · next a b heq => exact absurd heq (hsplit a b)
    · rfl
  have hgood : colonCount s = 1 → validateMounts c = none := by
    intro h
    have hwf : ∀ b ∈ injectedBinds c, colonCount b = 1 := by
      simp [injectedBinds, hMod, hBinds, h]
    rw [validateMounts_eq_firstRepeat c hwf]
    simp [mountTargets, hMounts, injectedBinds, hMod, hBinds, firstRepeat]
  refine ⟨⟨?_, ?_⟩, hbad, hgood, fun _ => rfl⟩
  · rintro ⟨e, he, _⟩ hone
    rw [hgood hone] at he
    cases he
  · intro h
    exact ⟨_, hbad h, rfl⟩

/-- Witness of C5: the bind strings `noseparator` and `a:b:c` are rejected as
malformed, `a:b` is accepted. -/
theorem validateMounts_single_bind_witness :
    validateMounts (requestOneBind "noseparator") =
      some (.wrapColon (.sentinel .ErrInvalidBindMount) "noseparator") ∧
    validateMounts (requestOneBind "a:b:c") =
      some (.wrapColon (.sentinel .ErrInvalidBindMount) "a:b:c") ∧
    validateMounts (requestOneBind "a:b") = none :=
  ⟨(validateMounts_single_bind (requestOneBind "noseparator") (bindsModifier ["noseparator"])
      "noseparator" rfl rfl rfl).2.1 (by decide),
    (validateMounts_single_bind (requestOneBind "a:b:c") (bindsModifier ["a:b:c"])
      "a:b:c" rfl rfl rfl).2.1 (by decide),
    (validateMounts_single_bind (requestOneBind "a:b") (bindsModifier ["a:b"])
      "a:b" rfl rfl rfl).2.2.1 (by decide)⟩

/-! ## Theorems: order of the checks -/

/-- C6: `Validate` returns the error of the first failing check in the order
context/image exclusivity, source-is-specified, mount targets; it returns nil
exactly when all three checks return nil; and a request with both an image and
a context path gets the conflict error whatever `validateMounts` would say. -/
theorem validate_first_failure (c : ContainerRequest) :
    Validate c =
      (match validateContextAndImage c with
        | some err => some err
        | none =>
          match validateContextOrImageIsSpecified c with
          | some err => some err
          | none => validateMounts c) ∧
    (Validate c = none ↔
      validateContextAndImage c = none ∧ validateContextOrImageIsSpecified c = none ∧
        validateMounts c = none) ∧
    (c.Image ≠ "" ∧ c.FromDockerfile.Context ≠ "" →
      Validate c = validateContextAndImage c ∧
      Validate c =
        some (.errorsNew "you cannot specify both an Image and Context in a ContainerRequest")) := by
  have hmain : Validate c =
      (match validateContextAndImage c with
        | some err => some err
        | none =>
          match validateContextOrImageIsSpecified c with
          | some err => some err
          | none => validateMounts c) := by
    simp only [Validate, validationMethods, runValidation]
    cases validateContextAndImage c <;> cases validateContextOrImageIsSpecified c <;>
      cases validateMounts c <;> rfl
  refine ⟨hmain, ?_, ?_⟩
  · rw [hmain]
    cases validateContextAndImage c <;> cases validateContextOrImageIsSpecified c <;>
      cases validateMounts c <;> simp
  · rintro ⟨hImage, hContext⟩
    have h1 : validateContextAndImage c =
        some (.errorsNew "you cannot specify both an Image and Context in a ContainerRequest") := by
      simp [validateContextAndImage, hImage, hContext]
    rw [hmain, h1]
    exact ⟨rfl, rfl⟩

/-- Witness of C6: the example request has an image and a context path, and
its mount check alone would report a duplicate target; `Validate` reports the
conflict. -/
theorem validate_first_failure_witness :
    validateMounts requestImageAndContext =
      some (.wrapColon (.sentinel .ErrDuplicateMountTarget) "/data") ∧
    Validate requestImageAndContext =
      some (.errorsNew "you cannot specify both an Image and Context in a ContainerRequest") :=
  ⟨by decide, ((validate_first_failure requestImageAndContext).2.2 ⟨by decide, by decide⟩).2⟩

/-! ## Lemmas: the build plan -/

theorem GoMap.uniqueKeys_empty {V : Type} : (GoMap.empty : GoMap V).UniqueKeys := by
  simp [GoMap.UniqueKeys, GoMap.empty]

theorem GoMap.uniqueKeys_store {V : Type} (m : GoMap V) (h : m.UniqueKeys) (k : String) (v : V) :
    (m.store k v).UniqueKeys := by
  unfold GoMap.UniqueKeys GoMap.store at *
  simp only [List.map_cons, List.nodup_cons]
  constructor
  · simp [List.mem_map, List.mem_filter]
  · exact (List.Nodup.sublist ((List.filter_sublist _).map Prod.fst) h)

theorem collectAuthConfigs_uniqueKeys (d : Deps) (images : List String) (m : GoMap AuthConfig)
    (h : m.UniqueKeys) : (collectAuthConfigs d m images).UniqueKeys := by
  induction images generalizing m with
  | nil => exact h
  | cons image rest ih =>
    unfold collectAuthConfigs
    cases d.DockerImageAuth image with
    | error e => exact ih m h
    | ok found => exact ih _ (GoMap.uniqueKeys_store m h _ _)

theorem getAuthConfigsFromDockerfile_uniqueKeys (d : Deps) (c : ContainerRequest) :
    (getAuthConfigsFromDockerfile d c).UniqueKeys := by
  unfold getAuthConfigsFromDockerfile
  split
  · exact GoMap.uniqueKeys_empty
  · exact collectAuthConfigs_uniqueKeys d _ _ GoMap.uniqueKeys_empty

theorem GoMap.lookup_eq_some_iff {V : Type} (m : GoMap V) (h : m.UniqueKeys) (k : String)
    (v : V) : m.lookup k = some v ↔ (k, v) ∈ m.entries := by
  obtain ⟨entries⟩ := m
  unfold GoMap.UniqueKeys at h
  unfold GoMap.lookup
  simp only at h ⊢
  induction entries with
  | nil => simp
  | cons e es ih =>
    simp only [List.map_cons, List.nodup_cons] at h
    rw [List.find?_cons]
    by_cases hk : e.1 = k
    · have hbeq : (e.1 == k) = true := by simpa using hk
      simp only [hbeq, Option.map_some', Option.some.injEq, List.mem_cons]
      constructor
      · intro hv
        exact Or.inl (by rw [← hk, ← hv])
      · rintro (heq | hmem)
        · rw [← heq]
        · exact absurd (List.mem_map.2 ⟨(k, v), hmem, hk.symm⟩) h.1
    · have hbeq : (e.1 == k) = false := by simpa using hk
      simp only [hbeq, List.mem_cons]
      rw [ih h.2]
      constructor
      · exact Or.inr
      · rintro (heq | hmem)
        · exact absurd (by rw [← heq]) hk
        · exact hmem

theorem GoMap.lookup_perm {V : Type} (m m' : GoMap V) (h : m.UniqueKeys)
    (hperm : m'.entries.Perm m.entries) (k : String) : m'.lookup k = m.lookup k := by
  have h' : m'.UniqueKeys := by
    unfold GoMap.UniqueKeys at h ⊢
    exact ((hperm.map Prod.fst).nodup_iff).2 h
  apply Option.ext
  intro v
  rw [Option.mem_def, Option.mem_def, GoMap.lookup_eq_some_iff m' h',
    GoMap.lookup_eq_some_iff m h]
  exact hperm.mem_iff

theorem mergeAuthConfigs_lookup (dst src : GoMap AuthConfig) (h : src.UniqueKeys) (k : String) :
    (mergeAuthConfigs dst src).lookup k =
      match src.lookup k with
      | some found => some found
      | none => dst.lookup k := by
  obtain ⟨entries⟩ := src
  unfold mergeAuthConfigs
  simp only
  induction entries generalizing dst with
  | nil => rfl
  | cons e es ih =>
    have hes : (GoMap.mk es).UniqueKeys := by
      unfold GoMap.UniqueKeys at h ⊢
      simp only [List.map_cons, List.nodup_cons] at h
      exact h.2
    have hnot : e.1 ∉ es.map Prod.fst := by
      unfold GoMap.UniqueKeys at h
      simp only [List.map_cons, List.nodup_cons] at h
      exact h.1
    rw [List.foldl_cons, ih (dst.store e.1 e.2) hes, GoMap.lookup_store]
    by_cases hk : k = e.1
    · subst hk
      have hnone : (GoMap.mk es).lookup e.1 = none := by
        unfold GoMap.lookup
        rw [Option.map_eq_none', List.find?_eq_none]
        intro x hx hxe
        exact hnot (List.mem_map.2 ⟨x, hx, by simpa using hxe⟩)
      rw [hnone]
      simp [GoMap.lookup]
    · have hne : (e.1 == k) = false := by simpa using fun h' : e.1 = k => hk h'.symm
      simp [GoMap.lookup, List.find?_cons, hne, hk]

theorem mergeAuthConfigs_any_order (dst src : GoMap AuthConfig) (h : src.UniqueKeys)
    (order : List (String × AuthConfig)) (hperm : order.Perm src.entries) (k : String) :
    (mergeAuthConfigs dst ⟨order⟩).lookup k = (mergeAuthConfigs dst src).lookup k := by
  have h' : (GoMap.mk order).UniqueKeys := by
    unfold GoMap.UniqueKeys at h ⊢
    exact ((hperm.map Prod.fst).nodup_iff).2 h
  rw [mergeAuthConfigs_lookup dst _ h', mergeAuthConfigs_lookup dst _ h,
    GoMap.lookup_perm src ⟨order⟩ h hperm k]

theorem GetContext_request (d : Deps) (c : ContainerRequest) :
    (GetContext d c).2 = c ∨
    ∃ abs, (GetContext d c).2 =
      { c with FromDockerfile := { c.FromDockerfile with Context := abs } } := by
  unfold GetContext
  cases c.FromDockerfile.ContextArchive with
  | some contextArchive => exact Or.inl rfl
  | none =>
    cases d.Abs c.FromDockerfile.Context with
    | error err => exact Or.inl rfl
    | ok abs =>
      refine Or.inr ⟨abs, ?_⟩
      simp only
      rcases parseDockerIgnore d abs with ⟨excluded, _ | err⟩
      · simp only
        cases d.TarWithOptions abs excluded <;> rfl
      · rfl

theorem GetContext_labels (d : Deps) (c : ContainerRequest) :
    (GetContext d c).2.FromDockerfile.Repo = c.FromDockerfile.Repo ∧
    (GetContext d c).2.FromDockerfile.Tag = c.FromDockerfile.Tag := by
  rcases GetContext_request d c with h | ⟨abs, h⟩ <;> rw [h] <;> exact ⟨rfl, rfl⟩

theorem GetRepo_after_GetContext (d : Deps) (c : ContainerRequest) (drawn : Nat) :
    GetRepo d (GetContext d c).2 drawn = GetRepo d c drawn := by
  unfold GetRepo
  rw [(GetContext_labels d c).1]

theorem GetTag_after_GetContext (d : Deps) (c : ContainerRequest) (drawn : Nat) :
    GetTag d (GetContext d c).2 drawn = GetTag d c drawn := by
  unfold GetTag
  rw [(GetContext_labels d c).2]

theorem BuildOptions_err_none (d : Deps) (c : ContainerRequest) (drawn : Nat)
    (h : (BuildOptions d c drawn).err = none) :
    ∃ buildContext, (GetContext d c).1 = .ok buildContext := by
  unfold BuildOptions at h
  rcases hg : GetContext d c with ⟨err | buildContext, c1⟩
  · rw [hg] at h
    simp at h
  · exact ⟨buildContext, rfl⟩

theorem BuildOptions_request (d : Deps) (c : ContainerRequest) (drawn : Nat) :
    (BuildOptions d c drawn).request = (GetContext d c).2 := by
  unfold BuildOptions
  rcases GetContext d c with ⟨err | buildContext, c1⟩ <;> rfl

/-! ## Theorems: the build plan -/

/-- C7: when `BuildOptions` succeeds, the returned `BuildArgs` are the
request's `BuildArgs` and the returned `Dockerfile` is `GetDockerfile()` of the
request, whatever the modifier wrote into those two fields. -/
theorem buildOptions_mandatory_fields (d : Deps) (c : ContainerRequest) (drawn : Nat)
    (hOk : (BuildOptions d c drawn).err = none) :
    (BuildOptions d c drawn).options.BuildArgs = c.FromDockerfile.BuildArgs ∧
    (BuildOptions d c drawn).options.Dockerfile = GetDockerfile c := by
  obtain ⟨buildContext, hg⟩ := BuildOptions_err_none d c drawn hOk
  unfold BuildOptions
  rcases hgc : GetContext d c with ⟨res, c1⟩
  rw [hgc] at hg
  simp only at hg
  subst hg
  simp only
  split <;> exact ⟨rfl, rfl⟩

/-- Witness of C7: the request has `BuildArgs` mapping `VER` to `1.2` and a
modifier that empties `BuildArgs` and renames the Dockerfile; the plan keeps
`VER = 1.2` and the default Dockerfile name. -/
theorem buildOptions_mandatory_fields_witness :
    (BuildOptions exampleDeps requestBuildArgs 0).err = none ∧
    (modifiedBuildOptions requestBuildArgs).BuildArgs = some GoMap.empty ∧
    (BuildOptions exampleDeps requestBuildArgs 0).options.BuildArgs
      = some ⟨[("VER", some "1.2")]⟩ ∧
    (BuildOptions exampleDeps requestBuildArgs 0).options.Dockerfile = "Dockerfile" :=
  ⟨rfl, rfl, (buildOptions_mandatory_fields exampleDeps requestBuildArgs 0 rfl).1,
    (buildOptions_mandatory_fields exampleDeps requestBuildArgs 0 rfl).2⟩

/-- C8: when `BuildOptions` succeeds, the returned `Tags` are the canonical tag
`repo:tag` (one call of `GetRepo`, then one call of `GetTag`) followed by the
tags the modifier left, in their order; so the length is one more than the
number of modifier tags and the canonical tag is at index 0. With `Repo`
equal to `MyRepo`, an empty `Tag` and a modifier leaving `latest`, the list is
`myrepo:` followed by the generated identifier, then `latest`. -/
theorem buildOptions_tags (d : Deps) (c : ContainerRequest) (drawn : Nat)
    (hOk : (BuildOptions d c drawn).err = none) :
    (BuildOptions d c drawn).options.Tags =
      ((GetRepo d c drawn).1 ++ ":" ++ (GetTag d c (GetRepo d c drawn).2).1) ::
        (modifiedBuildOptions c).Tags ∧
    (BuildOptions d c drawn).options.Tags.length = 1 + (modifiedBuildOptions c).Tags.length ∧
    (BuildOptions d c drawn).options.Tags[0]? =
      some ((GetRepo d c drawn).1 ++ ":" ++ (GetTag d c (GetRepo d c drawn).2).1) ∧
    (BuildOptions d c drawn).drawn = (GetTag d c (GetRepo d c drawn).2).2 ∧
    (c.FromDockerfile.Repo = "MyRepo" → c.FromDockerfile.Tag = "" →
      d.ToLower "MyRepo" = "myrepo" → (modifiedBuildOptions c).Tags = ["latest"] →
      (BuildOptions d c drawn).options.Tags = ["myrepo" ++ ":" ++ d.NewString drawn, "latest"]) := by
  obtain ⟨buildContext, hg⟩ := BuildOptions_err_none d c drawn hOk
  have hrepo := GetRepo_after_GetContext d c
  have htag := GetTag_after_GetContext d c
  have hmain : (BuildOptions d c drawn).options.Tags =
      ((GetRepo d c drawn).1 ++ ":" ++ (GetTag d c (GetRepo d c drawn).2).1) ::
        (modifiedBuildOptions c).Tags ∧
      (BuildOptions d c drawn).drawn = (GetTag d c (GetRepo d c drawn).2).2 := by
    unfold BuildOptions
    rcases hgc : GetContext d c with ⟨res, c1⟩
    rw [hgc] at hg hrepo htag
    simp only at hg hrepo htag
    subst hg
    simp only [hrepo, htag]
    split
    · simp
    · next hlen =>
      have hnil : (modifiedBuildOptions c).Tags = [] := by
        cases ht : (modifiedBuildOptions c).Tags with
        | nil => rfl
        | cons t ts => simp [ht] at hlen
      simp [hnil]
  refine ⟨hmain.1, ?_, ?_, hmain.2, ?_⟩
  · rw [hmain.1, List.length_cons]
    omega
  · rw [hmain.1]
    simp
  · intro hRepo hTag hLower hLatest
    rw [hmain.1, hLatest]
    simp [GetRepo, GetTag, hRepo, hTag, hLower]

/-- Witness of C8: `Repo = "MyRepo"`, no tag, a modifier appending `latest`;
the tags are `myrepo:uuid` (the first generated identifier) and `latest`. -/
theorem buildOptions_tags_witness :
    (BuildOptions exampleDeps requestMyRepo 0).err = none ∧
    (BuildOptions exampleDeps requestMyRepo 0).options.Tags = ["myrepo:uuid", "latest"] ∧
    (BuildOptions exampleDeps requestMyRepo 0).options.Tags.length = 2 ∧
    (BuildOptions exampleDeps requestMyRepo 0).drawn = 1 :=
  ⟨rfl,
    ((buildOptions_tags exampleDeps requestMyRepo 0 rfl).2.2.2.2 rfl rfl (by decide) rfl).trans
      (by decide),
    (buildOptions_tags exampleDeps requestMyRepo 0 rfl).2.1,
    (buildOptions_tags exampleDeps requestMyRepo 0 rfl).2.2.2.1⟩

/-- C9, as the code has it: when `BuildOptions` succeeds, the returned `Remove`
and `ForceRemove` are the values the modifier left after running on the
defaults (`Remove = true`, `ForceRemove = true`); they are both `true` when
there is no modifier or the modifier leaves both set. -/
theorem buildOptions_cleanup_directives (d : Deps) (c : ContainerRequest) (drawn : Nat)
    (hOk : (BuildOptions d c drawn).err = none) :
    (BuildOptions d c drawn).options.Remove = (modifiedBuildOptions c).Remove ∧
    (BuildOptions d c drawn).options.ForceRemove = (modifiedBuildOptions c).ForceRemove ∧
    (c.FromDockerfile.BuildOptionsModifier = none →
      (BuildOptions d c drawn).options.Remove = true ∧
      (BuildOptions d c drawn).options.ForceRemove = true) ∧
    (∀ modifier, c.FromDockerfile.BuildOptionsModifier = some modifier →
      (modifier defaultBuildOptions).Remove = true →
      (modifier defaultBuildOptions).ForceRemove = true →
      (BuildOptions d c drawn).options.Remove = true ∧
      (BuildOptions d c drawn).options.ForceRemove = true) := by
  obtain ⟨buildContext, hg⟩ := BuildOptions_err_none d c drawn hOk
  have hmain : (BuildOptions d c drawn).options.Remove = (modifiedBuildOptions c).Remove ∧
      (BuildOptions d c drawn).options.ForceRemove = (modifiedBuildOptions c).ForceRemove := by
    unfold BuildOptions
    rcases hgc : GetContext d c with ⟨res, c1⟩
    rw [hgc] at hg
    simp only at hg
    subst hg
    simp only
    split <;> exact ⟨rfl, rfl⟩
  refine ⟨hmain.1, hmain.2, ?_, ?_⟩
  · intro hnone
    rw [hmain.1, hmain.2]
    simp [modifiedBuildOptions, hnone, defaultBuildOptions]
  · intro modifier hsome hRemove hForce
    rw [hmain.1, hmain.2]
    simp [modifiedBuildOptions, hsome, hRemove, hForce]

/-- Witness of C9 as amended: a request whose modifier only appends a tag keeps
both cleanup directives. -/
theorem buildOptions_cleanup_directives_witness :
    (BuildOptions exampleDeps requestMyRepo 0).err = none ∧
    (BuildOptions exampleDeps requestMyRepo 0).options.Remove = true ∧
    (BuildOptions exampleDeps requestMyRepo 0).options.ForceRemove = true :=
  ⟨rfl, (buildOptions_cleanup_directives exampleDeps requestMyRepo 0 rfl).2.2.2 _ rfl rfl rfl⟩

/-- Counterexample to C9 as stated: a modifier that switches `Remove` and
`ForceRemove` off; `BuildOptions` succeeds and returns both as `false`. -/
theorem buildOptions_cleanup_counterexample :
    (BuildOptions exampleDeps requestKeepLayers 0).err = none ∧
    (BuildOptions exampleDeps requestKeepLayers 0).options.Remove = false ∧
    (BuildOptions exampleDeps requestKeepLayers 0).options.ForceRemove = false ∧
    ¬ ((BuildOptions exampleDeps requestKeepLayers 0).err = none →
        (BuildOptions exampleDeps requestKeepLayers 0).options.Remove = true ∧
        (BuildOptions exampleDeps requestKeepLayers 0).options.ForceRemove = true) :=
  ⟨rfl, rfl, rfl, fun h => Bool.noConfusion ((h rfl).1.symm.trans rfl : true = false)⟩

/-- C10: when `BuildOptions` succeeds, the returned `AuthConfigs` map is
non-nil, and at every registry key it holds the entry discovered from the
Dockerfile when there is one, otherwise the entry the modifier set when there
is one, otherwise nothing. -/
theorem buildOptions_authConfigs (d : Deps) (c : ContainerRequest) (drawn : Nat)
    (hOk : (BuildOptions d c drawn).err = none) :
    ∃ merged, (BuildOptions d c drawn).options.AuthConfigs = some merged ∧
      ∀ k, merged.lookup k =
        match (getAuthConfigsFromDockerfile d (BuildOptions d c drawn).request).lookup k with
        | some discovered => some discovered
        | none =>
          match (modifiedBuildOptions c).AuthConfigs with
          | some supplied => supplied.lookup k
          | none => none := by
  obtain ⟨buildContext, hg⟩ := BuildOptions_err_none d c drawn hOk
  have hreq := BuildOptions_request d c drawn
  have hauth : (BuildOptions d c drawn).options.AuthConfigs =
      some (mergeAuthConfigs
        (match (modifiedBuildOptions c).AuthConfigs with
          | none => GoMap.empty
          | some m => m)
        (getAuthConfigsFromDockerfile d (GetContext d c).2)) := by
    unfold BuildOptions
    rcases hgc : GetContext d c with ⟨res, c1⟩
    rw [hgc] at hg
    simp only at hg
    subst hg
    simp only
    split <;> rfl
  refine ⟨_, hauth, fun k => ?_⟩
  rw [mergeAuthConfigs_lookup _ _ (getAuthConfigsFromDockerfile_uniqueKeys d _), hreq]
  cases (getAuthConfigsFromDockerfile d (GetContext d c).2).lookup k with
  | some discovered => rfl
  | none =>
    cases (modifiedBuildOptions c).AuthConfigs with
    | none => rfl
    | some supplied => rfl

/-- Witness of C10: the modifier supplies credentials for `registry.example`
and `private.example`, the Dockerfile scan discovers `registry.example` and
`mirror.example`; the plan holds the discovered entry for the first, the
modifier's for the second, the discovered one for the third, and nothing for
an unknown registry. -/
theorem buildOptions_authConfigs_witness :
    (BuildOptions exampleDeps requestWithAuth 0).err = none ∧
    (∃ merged, (BuildOptions exampleDeps requestWithAuth 0).options.AuthConfigs = some merged ∧
      ∀ k, merged.lookup k =
        match (getAuthConfigsFromDockerfile exampleDeps
            (BuildOptions exampleDeps requestWithAuth 0).request).lookup k with
        | some discovered => some discovered
        | none =>
          match (modifiedBuildOptions requestWithAuth).AuthConfigs with
          | some supplied => supplied.lookup k
          | none => none) ∧
    (BuildOptions exampleDeps requestWithAuth 0).options.AuthConfigs.bind
        (fun merged => merged.lookup "registry.example")
      = some ⟨"ci", "from-dockerfile", "registry.example"⟩ ∧
    (BuildOptions exampleDeps requestWithAuth 0).options.AuthConfigs.bind
        (fun merged => merged.lookup "private.example")
      = some ⟨"me", "private-secret", "private.example"⟩ ∧
    (BuildOptions exampleDeps requestWithAuth 0).options.AuthConfigs.bind
        (fun merged => merged.lookup "mirror.example")
      = some ⟨"ci", "mirror-secret", "mirror.example"⟩ ∧
    (BuildOptions exampleDeps requestWithAuth 0).options.AuthConfigs.bind
        (fun merged => merged.lookup "unknown.example")
      = none :=
  ⟨rfl, buildOptions_authConfigs exampleDeps requestWithAuth 0 rfl,
    by decide, by decide, by decide, by decide⟩

/-! ## Lemmas: the packaged context -/

theorem BuildOptions_dockerfile (d : Deps) (c : ContainerRequest) (drawn : Nat) :
    (BuildOptions d c drawn).options.Dockerfile = GetDockerfile c := by
  unfold BuildOptions
  rcases GetContext d c with ⟨err | buildContext, c1⟩
  · rfl
  · simp only
    split <;> rfl

theorem BuildOptions_err (d : Deps) (c : ContainerRequest) (drawn : Nat) :
    (BuildOptions d c drawn).err =
      match (GetContext d c).1 with
      | .error err => some err
      | .ok _ => none := by
  unfold BuildOptions
  rcases GetContext d c with ⟨err | buildContext, c1⟩ <;> rfl

theorem GetContext_resolved (d : Deps) (c : ContainerRequest) (abs : String)
    (hArchive : c.FromDockerfile.ContextArchive = none)
    (hAbs : d.Abs c.FromDockerfile.Context = .ok abs) :
    (GetContext d c).2 =
      { c with FromDockerfile := { c.FromDockerfile with Context := abs } } := by
  unfold GetContext
  rw [hArchive]
  simp only [hAbs]
  rcases parseDockerIgnore d abs with ⟨excluded, _ | err⟩
  · simp only
    cases d.TarWithOptions abs excluded <;> rfl
  · rfl

/-! ## Theorems: image, archive and Dockerfile -/

/-- C11, at the failing input: a request with a non-empty image, a non-nil
context archive, an empty context path and no mounts passes `Validate`,
although `ShouldBuildImage` counts the archive as a build source. -/
theorem validate_image_and_archive_accepted :
    requestImageAndArchive.Image ≠ "" ∧
    requestImageAndArchive.FromDockerfile.ContextArchive ≠ none ∧
    requestImageAndArchive.FromDockerfile.Context = "" ∧
    ShouldBuildImage requestImageAndArchive = true ∧
    validateContextAndImage requestImageAndArchive = none ∧
    Validate requestImageAndArchive = none := by
  refine ⟨by decide, by decide, rfl, rfl, rfl, rfl⟩

/-- C12: `GetDockerfile` returns `Dockerfile` when the request's Dockerfile
field is empty and the field itself otherwise, so its result is never empty;
and a request with an empty Dockerfile field compiles to build options whose
Dockerfile is `Dockerfile`. -/
theorem getDockerfile_default (c : ContainerRequest) :
    (c.FromDockerfile.Dockerfile = "" → GetDockerfile c = "Dockerfile") ∧
    (c.FromDockerfile.Dockerfile ≠ "" → GetDockerfile c = c.FromDockerfile.Dockerfile) ∧
    GetDockerfile c ≠ "" ∧
    (c.FromDockerfile.Dockerfile = "" →
      ∀ (d : Deps) (drawn : Nat), (BuildOptions d c drawn).options.Dockerfile = "Dockerfile") := by
  have hEmpty : c.FromDockerfile.Dockerfile = "" → GetDockerfile c = "Dockerfile" := by
    intro h
    simp [GetDockerfile, h]
  have hSet : c.FromDockerfile.Dockerfile ≠ "" →
      GetDockerfile c = c.FromDockerfile.Dockerfile := by
    intro h
    simp [GetDockerfile, h]
  refine ⟨hEmpty, hSet, ?_, ?_⟩
  · by_cases h : c.FromDockerfile.Dockerfile = ""
    · rw [hEmpty h]
      decide
    · rw [hSet h]
      exact h
  · intro h d drawn
    rw [BuildOptions_dockerfile, hEmpty h]

/-- Witness of C12: scenario A, the request with no image, context `./app`
and no Dockerfile name, compiles without error to the Dockerfile path
`Dockerfile`. -/
theorem getDockerfile_default_witness :
    requestScenarioA.Image = "" ∧ requestScenarioA.FromDockerfile.Context = "./app" ∧
    requestScenarioA.FromDockerfile.Dockerfile = "" ∧
    (BuildOptions exampleDeps requestScenarioA 0).err = none ∧
    (BuildOptions exampleDeps requestScenarioA 0).options.Dockerfile = "Dockerfile" ∧
    GetDockerfile requestBuildArgs ≠ "" :=
  ⟨rfl, rfl, rfl, rfl, (getDockerfile_default requestScenarioA).2.2.2 rfl exampleDeps 0,
    (getDockerfile_default requestBuildArgs).2.2.1⟩

/-! ## Theorems: the packaged context -/

/-- C14: for a request with a non-nil context archive, `GetContext` returns
that archive and no error and leaves the request as it was (the context path
included), whatever the calls outside the repository would return: none of
them is consulted. -/
theorem getContext_archive (c : ContainerRequest) (contextArchive : Reader)
    (hArchive : c.FromDockerfile.ContextArchive = some contextArchive) :
    ∀ d : Deps, GetContext d c = (.ok contextArchive, c) := by
  intro d
  unfold GetContext
  rw [hArchive]

/-- Witness of C14: a request with an archive and the relative context path
`relative/dir`; the archive comes back and the path is still relative, also
when every file is unreadable. -/
theorem getContext_archive_witness :
    requestArchiveAndPath.FromDockerfile.ContextArchive = some ⟨[116, 97, 114]⟩ ∧
    GetContext permissionDeniedDeps requestArchiveAndPath
      = (.ok ⟨[116, 97, 114]⟩, requestArchiveAndPath) ∧
    (GetContext tarFailsDeps requestArchiveAndPath).2.FromDockerfile.Context = "relative/dir" :=
  ⟨rfl, getContext_archive requestArchiveAndPath ⟨[116, 97, 114]⟩ rfl permissionDeniedDeps,
    congrArg (fun r => r.2.FromDockerfile.Context)
      (getContext_archive requestArchiveAndPath ⟨[116, 97, 114]⟩ rfl tarFailsDeps)⟩

/-- C15, as the code has it: `parseDockerIgnore` returns the empty pattern list
and no error whenever the ignore file cannot be opened, whatever the reason;
when the file opens it returns what `ignorefile.ReadAll` read, with the read
error, if any, wrapped after `error reading .dockerignore: `; so it returns
an error exactly when the file opens and reading it fails. -/
theorem parseDockerIgnore_open_failure (d : Deps) (targetDir : String) :
    (∀ openErr, d.Open (d.Join targetDir ".dockerignore") = .error openErr →
      parseDockerIgnore d targetDir = ([], none)) ∧
    (∀ f, d.Open (d.Join targetDir ".dockerignore") = .ok f →
      parseDockerIgnore d targetDir =
        ((d.ReadAll f).1,
          (d.ReadAll f).2.map (fun err => GoError.wrapLead "error reading .dockerignore: " err))) ∧
    ((parseDockerIgnore d targetDir).2 ≠ none ↔
      ∃ f err, d.Open (d.Join targetDir ".dockerignore") = .ok f ∧ (d.ReadAll f).2 = some err) := by
  have hErr : ∀ openErr, d.Open (d.Join targetDir ".dockerignore") = .error openErr →
      parseDockerIgnore d targetDir = ([], none) := by
    intro openErr h
    simp [parseDockerIgnore, h]
  have hOk : ∀ f, d.Open (d.Join targetDir ".dockerignore") = .ok f →
      parseDockerIgnore d targetDir =
        ((d.ReadAll f).1,
          (d.ReadAll f).2.map (fun err => GoError.wrapLead "error reading .dockerignore: " err)) := by
    intro f h
    simp only [parseDockerIgnore, h]
    rcases d.ReadAll f with ⟨excluded, _ | err⟩ <;> rfl
  refine ⟨hErr, hOk, ?_⟩
  cases hOpen : d.Open (d.Join targetDir ".dockerignore") with
  | error openErr =>
    rw [hErr openErr hOpen]
    simp
  | ok f =>
    rw [hOk f hOpen]
    cases hRead : (d.ReadAll f).2 with
    | none => simp [hRead]
    | some err => simp [hRead]

/-- Witness of C15 as amended: an ignore file that opens but does not parse
gives the wrapped read error; one that cannot be opened gives no error. -/
theorem parseDockerIgnore_open_failure_witness :
    parseDockerIgnore badIgnoreFileDeps "/work/app" =
      ([], some (.wrapLead "error reading .dockerignore: " (.foreign "bad pattern"))) ∧
    parseDockerIgnore exampleDeps "/work/app" = ([], none) :=
  ⟨(parseDockerIgnore_open_failure badIgnoreFileDeps "/work/app").2.1 ⟨_⟩ rfl,
    (parseDockerIgnore_open_failure exampleDeps "/work/app").1 _ rfl⟩

/-- Counterexample to C15 as stated: `os.Open` fails on the ignore file with a
permission error, not with nonexistence, and `parseDockerIgnore` returns the
empty list and no error. -/
theorem parseDockerIgnore_permission_denied :
    permissionDeniedDeps.Open (permissionDeniedDeps.Join "/work/app" ".dockerignore") =
      .error (.foreign "open /work/app/.dockerignore: permission denied") ∧
    parseDockerIgnore permissionDeniedDeps "/work/app" = ([], none) ∧
    ¬ ((parseDockerIgnore permissionDeniedDeps "/work/app").2 ≠ none) :=
  ⟨congrArg Except.error (congrArg GoError.foreign (by decide)), rfl, fun h => h rfl⟩

/-- C16: `BuildOptions` returns an error exactly when `GetContext` does, and
then it is `GetContext`'s error unchanged; the result does not depend on how
Dockerfile scanning or credential lookup behave, so their failures never make
`BuildOptions` fail. -/
theorem buildOptions_error (d : Deps) (c : ContainerRequest) (drawn : Nat) :
    ((BuildOptions d c drawn).err ≠ none ↔ ∃ err, (GetContext d c).1 = .error err) ∧
    (∀ err, (GetContext d c).1 = .error err → (BuildOptions d c drawn).err = some err) ∧
    (∀ buildContext, (GetContext d c).1 = .ok buildContext → (BuildOptions d c drawn).err = none) ∧
    (∀ extract auth,
      (BuildOptions { d with ExtractImagesFromDockerfile := extract, DockerImageAuth := auth }
        c drawn).err = (BuildOptions d c drawn).err) := by
  have hErr := BuildOptions_err d c drawn
  refine ⟨?_, ?_, ?_, ?_⟩
  · rw [hErr]
    cases (GetContext d c).1 with
    | error err => simp
    | ok buildContext => simp
  · intro err h
    rw [hErr, h]
  · intro buildContext h
    rw [hErr, h]
  · intro extract auth
    rw [BuildOptions_err, hErr]
    rfl

/-- Witness of C16: the context resolves but archiving it fails, and
`BuildOptions` returns the archive error as it is; with the example calls,
where one image has no credentials, it returns no error. -/
theorem buildOptions_error_witness :
    (BuildOptions tarFailsDeps requestScenarioA 0).err =
      some (.foreign "cannot walk the context directory") ∧
    (BuildOptions exampleDeps requestScenarioA 0).err = none :=
  ⟨(buildOptions_error tarFailsDeps requestScenarioA 0).2.1 _ rfl,
    (buildOptions_error exampleDeps requestScenarioA 0).2.2.1 _ rfl⟩

/-- C18: for a request with no context archive whose context path resolves to
`abs`, the request after `GetContext`, and after `BuildOptions`, is the
request before with `Context` replaced by `abs` and every other field as it
was, whether the ignore-file and archive steps succeed or not. -/
theorem getContext_only_resolves_path (d : Deps) (c : ContainerRequest) (abs : String)
    (drawn : Nat)
    (hArchive : c.FromDockerfile.ContextArchive = none)
    (hAbs : d.Abs c.FromDockerfile.Context = .ok abs) :
    (GetContext d c).2 =
      { c with FromDockerfile := { c.FromDockerfile with Context := abs } } ∧
    (BuildOptions d c drawn).request =
      { c with FromDockerfile := { c.FromDockerfile with Context := abs } } := by
  have h := GetContext_resolved d c abs hArchive hAbs
  exact ⟨h, by rw [BuildOptions_request, h]⟩

/-- Witness of C18: the context `./app` resolves to `/work/./app`; the
request after a failing `BuildOptions` differs from the original in that
field only. -/
theorem getContext_only_resolves_path_witness :
    (BuildOptions tarFailsDeps requestScenarioA 0).err ≠ none ∧
    (GetContext tarFailsDeps requestScenarioA).2 =
      { requestScenarioA with
        FromDockerfile := { requestScenarioA.FromDockerfile with Context := "/work/./app" } } ∧
    (BuildOptions tarFailsDeps requestScenarioA 0).request =
      { requestScenarioA with
        FromDockerfile := { requestScenarioA.FromDockerfile with Context := "/work/./app" } } :=
  ⟨by decide, getContext_only_resolves_path tarFailsDeps requestScenarioA "/work/./app" 0 rfl
    (congrArg Except.ok (by decide))⟩

/-! ## Lemmas: credential discovery -/

theorem collectAuthConfigs_append (d : Deps) (m : GoMap AuthConfig) (xs ys : List String) :
    collectAuthConfigs d m (xs ++ ys) = collectAuthConfigs d (collectAuthConfigs d m xs) ys := by
  induction xs generalizing m with
  | nil => rfl
  | cons image rest ih =>
    simp only [List.cons_append, collectAuthConfigs]
    cases d.DockerImageAuth image with
    | error err => exact ih m
    | ok found => exact ih _

theorem collectAuthConfigs_lookup_other (d : Deps) (m : GoMap AuthConfig) (images : List String)
    (k : String)
    (h : ∀ image ∈ images, ∀ auth, d.DockerImageAuth image ≠ .ok (k, auth)) :
    (collectAuthConfigs d m images).lookup k = m.lookup k := by
  induction images generalizing m with
  | nil => rfl
  | cons image rest ih =>
    have hrest : ∀ x ∈ rest, ∀ auth, d.DockerImageAuth x ≠ .ok (k, auth) :=
      fun x hx => h x (List.mem_cons_of_mem _ hx)
    unfold collectAuthConfigs
    cases hauth : d.DockerImageAuth image with
    | error err => exact ih m hrest
    | ok found =>
      obtain ⟨registry, authConfig⟩ := found
      have hne : k ≠ registry := by
        rintro rfl
        exact h image (List.mem_cons_self _ _) authConfig hauth
      simp only
      rw [ih _ hrest, GoMap.lookup_store, if_neg hne]

theorem collectAuthConfigs_skip (d : Deps) (m : GoMap AuthConfig) (image : String)
    (rest : List String) (err : GoError) (h : d.DockerImageAuth image = .error err) :
    collectAuthConfigs d m (image :: rest) = collectAuthConfigs d m rest := by
  rw [collectAuthConfigs, h]

/-! ## Theorems: credential discovery -/

/-- C17: when extracting the image list fails, `getAuthConfigsFromDockerfile`
returns the empty map. When it yields `images`: a registry key maps to the
credentials of the last image in list order whose lookup succeeds with that
registry; a key for which no lookup succeeds is absent; and an image whose
lookup fails can be removed from the list without changing the result. -/
theorem getAuthConfigs_discovery (d : Deps) (c : ContainerRequest) :
    (∀ err,
      d.ExtractImagesFromDockerfile (d.Join c.FromDockerfile.Context (GetDockerfile c))
        (GetBuildArgs c) = .error err →
      getAuthConfigsFromDockerfile d c = GoMap.empty) ∧
    (∀ images,
      d.ExtractImagesFromDockerfile (d.Join c.FromDockerfile.Context (GetDockerfile c))
        (GetBuildArgs c) = .ok images →
      (∀ before image after registry auth,
        images = before ++ image :: after →
        d.DockerImageAuth image = .ok (registry, auth) →
        (∀ later ∈ after, ∀ other, d.DockerImageAuth later ≠ .ok (registry, other)) →
        (getAuthConfigsFromDockerfile d c).lookup registry = some auth) ∧
      (∀ registry,
        (∀ image ∈ images, ∀ auth, d.DockerImageAuth image ≠ .ok (registry, auth)) →
        (getAuthConfigsFromDockerfile d c).lookup registry = none) ∧
      (∀ before failing after err,
        images = before ++ failing :: after →
        d.DockerImageAuth failing = .error err →
        getAuthConfigsFromDockerfile d c =
          collectAuthConfigs d GoMap.empty (before ++ after))) := by
  refine ⟨?_, ?_⟩
  · intro err h
    simp [getAuthConfigsFromDockerfile, h]
  · intro images h
    have hget : getAuthConfigsFromDockerfile d c = collectAuthConfigs d GoMap.empty images := by
      simp [getAuthConfigsFromDockerfile, h]
    refine ⟨?_, ?_, ?_⟩
    · intro before image after registry auth hsplit hauth hlater
      rw [hget, hsplit, collectAuthConfigs_append, collectAuthConfigs, hauth]
      simp only
      rw [collectAuthConfigs_lookup_other d _ after registry hlater, GoMap.lookup_store,
        if_pos rfl]
    · intro registry hnone
      rw [hget, collectAuthConfigs_lookup_other d _ images registry hnone]
      rfl
    · intro before failing after err hsplit hfail
      rw [hget, hsplit, collectAuthConfigs_append, collectAuthConfigs_skip d _ failing after err hfail,
        ← collectAuthConfigs_append]

/-- Witness of C17: the Dockerfile names three images and the second has no
resolvable credentials; the first and the third are still discovered, the
result is the one for the list without the second, and nothing else is in
the map. -/
theorem getAuthConfigs_discovery_witness :
    (getAuthConfigsFromDockerfile exampleDeps requestScenarioA).lookup "registry.example"
      = some ⟨"ci", "from-dockerfile", "registry.example"⟩ ∧
    (getAuthConfigsFromDockerfile exampleDeps requestScenarioA).lookup "mirror.example"
      = some ⟨"ci", "mirror-secret", "mirror.example"⟩ ∧
    (getAuthConfigsFromDockerfile exampleDeps requestScenarioA).lookup "not an image" = none ∧
    getAuthConfigsFromDockerfile exampleDeps requestScenarioA =
      collectAuthConfigs exampleDeps GoMap.empty
        (["registry.example/base:1"] ++ ["mirror.example/tools:2"]) :=
  ⟨by decide, by decide, by decide,
    ((getAuthConfigs_discovery exampleDeps requestScenarioA).2
      ["registry.example/base:1", "not an image", "mirror.example/tools:2"] rfl).2.2
      ["registry.example/base:1"] "not an image" ["mirror.example/tools:2"]
      (.foreign "invalid reference") rfl rfl⟩

/-! ## Theorems: order of the mount checks -/

theorem checkBinds_clean {targets : GoMap Bool} {seen : List String}
    (hrep : Represents targets seen) (good : List String)
    (hwf : ∀ g ∈ good, colonCount g = 1)
    (hfresh : firstRepeat seen (good.map bindTarget) = none) :
    ∃ targets1, Represents targets1 ((good.map bindTarget).reverse ++ seen) ∧
      ∀ tail, checkBinds targets (good ++ tail) = checkBinds targets1 tail := by
  induction good generalizing targets seen with
  | nil => exact ⟨targets, by simpa using hrep, fun _ => rfl⟩
  | cons g gs ih =>
    obtain ⟨hostPart, hsplit⟩ := stringsSplit_of_one_colon (hwf g (List.mem_cons_self _ _))
    have hwf1 : ∀ x ∈ gs, colonCount x = 1 := fun x hx => hwf x (List.mem_cons_of_mem _ hx)
    simp only [List.map_cons, firstRepeat] at hfresh
    by_cases hm : bindTarget g ∈ seen
    · rw [if_pos hm] at hfresh
      cases hfresh
    · rw [if_neg hm] at hfresh
      have hidx : targets.index (bindTarget g) = false := by
        cases hi : targets.index (bindTarget g)
        · rfl
        · exact absurd ((hrep _).1 hi) hm
      obtain ⟨targets1, hrep1, htail⟩ := ih (represents_store hrep (bindTarget g)) hwf1 hfresh
      refine ⟨targets1, by simpa using hrep1, fun tail => ?_⟩
      rw [List.cons_append, checkBinds]
      simp only [hsplit, hidx]
      exact htail tail

/-- C19: `validateMounts` looks at the declarative mounts first: when their
targets repeat, the result is the duplicate-target error for the first
repeated target, whatever the modifier injects. When they are distinct, and
the injected binds start with binds that are well-formed and add no repeated
target, the result is decided by the bind `b` that follows them: the
malformed-bind error for `b` when `b` is malformed, the duplicate-target error
for its target when that target was already seen; the binds after `b` play no
part. -/
theorem validateMounts_order (c : ContainerRequest) :
    (¬ (mountTargets c).Nodup →
      ∃ pre p post, mountTargets c = pre ++ p :: post ∧ pre.Nodup ∧ p ∈ pre ∧
        validateMounts c = some (.wrapColon (.sentinel .ErrDuplicateMountTarget) p)) ∧
    (∀ good b rest,
      injectedBinds c = good ++ b :: rest →
      (∀ g ∈ good, colonCount g = 1) →
      (mountTargets c ++ good.map bindTarget).Nodup →
      (colonCount b ≠ 1 →
        validateMounts c = some (.wrapColon (.sentinel .ErrInvalidBindMount) b)) ∧
      (colonCount b = 1 → bindTarget b ∈ mountTargets c ++ good.map bindTarget →
        validateMounts c =
          some (.wrapColon (.sentinel .ErrDuplicateMountTarget) (bindTarget b)))) := by
  refine ⟨?_, ?_⟩
  · intro hnd
    cases hfr : firstRepeat [] (mountTargets c) with
    | none => exact absurd ((firstRepeat_none_iff [] _).1 hfr).1 hnd
    | some p =>
      obtain ⟨pre, post, hsplit, hpre, -, hp⟩ := firstRepeat_some [] _ p hfr
      have hp1 : p ∈ pre := by
        rcases hp with hp | hp
        · simp at hp
        · exact hp
      exact ⟨pre, p, post, hsplit, hpre, hp1, validateMounts_of_mount_repeat c p hfr⟩
  · intro good b rest hbinds hwf hnodup
    rw [List.nodup_append] at hnodup
    obtain ⟨hmounts, hgood, hdisj⟩ := hnodup
    have hfr : firstRepeat [] (mountTargets c) = none :=
      (firstRepeat_none_iff [] _).2 ⟨hmounts, by simp⟩
    obtain ⟨targets1, hok, hrep⟩ := checkMounts_no_repeat represents_empty c.Mounts hfr
    have hfresh : firstRepeat ((mountTargets c).reverse ++ []) (good.map bindTarget) = none := by
      rw [firstRepeat_none_iff]
      refine ⟨hgood, fun t ht hmem => ?_⟩
      have hmem1 : t ∈ mountTargets c := by simpa using hmem
      exact hdisj hmem1 ht
    obtain ⟨targets2, hrep2, htail⟩ := checkBinds_clean hrep good hwf hfresh
    have hval : validateMounts c = checkBinds targets2 (b :: rest) := by
      unfold validateMounts
      rw [hok]
      cases hmod : c.HostConfigModifier with
      | none => simp [injectedBinds, hmod] at hbinds
      | some modifier =>
        have hinj : (modifier {}).Binds = good ++ b :: rest := by
          simpa [injectedBinds, hmod] using hbinds
        simp only [hinj]
        rw [if_pos (by simp), htail]
    refine ⟨?_, ?_⟩
    · intro hbad
      have hsplit := stringsSplit_of_not_one_colon hbad
      rw [hval]
      unfold checkBinds
      split
      · next x y heq => exact absurd heq (hsplit x y)
      · rfl
    · intro hone hseen
      obtain ⟨hostPart, hsplit⟩ := stringsSplit_of_one_colon hone
      have hidx : targets2.index (bindTarget b) = true := by
        rw [hrep2 (bindTarget b)]
        rcases List.mem_append.1 hseen with h | h
        · exact List.mem_append_right _ (by simpa [mountTargets] using h)
        · exact List.mem_append_left _ (by simpa using h)
      rw [hval, checkBinds]
      simp only [hsplit, hidx, if_true]

/-- Witness of C19: mounts `/a`, `/b`, `/c`, `/b`, `/a` with a malformed
injected bind give the duplicate-target error for `/b`; distinct mounts with
binds whose third is malformed and whose fourth repeats `/a` give the
malformed-bind error for the third; distinct mounts with binds whose second
repeats `/b` and whose third is malformed give the duplicate-target error for
`/b`. -/
theorem validateMounts_order_witness :
    validateMounts requestRepeatedMounts =
      some (.wrapColon (.sentinel .ErrDuplicateMountTarget) "/b") ∧
    validateMounts requestThirdBindMalformed =
      some (.wrapColon (.sentinel .ErrInvalidBindMount) "/h3") ∧
    validateMounts requestSecondBindRepeats =
      some (.wrapColon (.sentinel .ErrDuplicateMountTarget) "/b") :=
  ⟨by decide,
    ((validateMounts_order requestThirdBindMalformed).2 ["/h1:/c", "/h2:/d"] "/h3" ["/h4:/a"]
      rfl (by decide) (by decide)).1 (by decide),
    ((validateMounts_order requestSecondBindRepeats).2 ["/h1:/c"] "/h2:/b" ["x:y:z"]
      rfl (by decide) (by decide)).2 (by decide) (by decide)⟩

/-! ## Lemmas: lower-casing of ASCII letters -/

theorem char_isUpper_iff (c : Char) : c.isUpper = true ↔ 65 ≤ c.toNat ∧ c.toNat ≤ 90 := by
  unfold Char.isUpper Char.toNat
  simp only [Bool.and_eq_true, decide_eq_true_eq, ge_iff_le, UInt32.le_def, BitVec.le_def]
  rfl

theorem char_toLower_of_upper (c : Char) (h : 65 ≤ c.toNat ∧ c.toNat ≤ 90) :
    c.toLower.toNat = c.toNat + 32 := by
  have hc : c = Char.ofNat c.toNat := (Char.ofNat_toNat c).symm
  obtain ⟨h1, h2⟩ := h
  generalize c.toNat = n at hc h1 h2
  subst hc
  interval_cases n <;> rfl

theorem char_toLower_of_not_upper (c : Char) (h : ¬ (65 ≤ c.toNat ∧ c.toNat ≤ 90)) :
    c.toLower = c := by
  unfold Char.toLower
  simp only [ge_iff_le]
  rw [if_neg h]

theorem char_isUpper_toLower (c : Char) : c.toLower.isUpper = false := by
  by_cases h : 65 ≤ c.toNat ∧ c.toNat ≤ 90
  · have := char_toLower_of_upper c h
    cases hu : c.toLower.isUpper
    · rfl
    · rw [char_isUpper_iff] at hu
      omega
  · rw [char_toLower_of_not_upper c h]
    cases hu : c.isUpper
    · rfl
    · rw [char_isUpper_iff] at hu
      exact absurd hu h

theorem char_toLower_toLower (c : Char) : c.toLower.toLower = c.toLower := by
  apply char_toLower_of_not_upper
  intro hh
  rw [← char_isUpper_iff, char_isUpper_toLower] at hh
  cases hh

theorem string_mk_ne_empty {l : List Char} (h : l ≠ []) : String.mk l ≠ "" := by
  intro hs
  exact h (congrArg String.data hs)

theorem string_data_ne_nil {s : String} (h : s ≠ "") : s.data ≠ [] := by
  intro hd
  exact h (String.ext hd)

theorem exampleDeps_newString (n : Nat) :
    exampleDeps.NewString n ≠ "" ∧ ∀ ch ∈ (exampleDeps.NewString n).data, ch.isUpper = false := by
  have hdata : (exampleDeps.NewString n).data = ['u', 'u', 'i', 'd'] ++ List.replicate n 'i' := rfl
  constructor
  · intro h
    have := congrArg String.data h
    rw [hdata] at this
    simp at this
  · intro ch hch
    rw [hdata] at hch
    rcases List.mem_append.1 hch with h | h
    · simp only [List.mem_cons, List.mem_singleton, List.not_mem_nil, or_false] at h
      rcases h with rfl | rfl | rfl | rfl <;> rfl
    · rw [(List.mem_replicate.1 h).2]
      rfl

theorem char_toLower_ascii (c : Char) (h : c.toNat < 128) : c.toLower.toNat < 128 := by
  by_cases hu : 65 ≤ c.toNat ∧ c.toNat ≤ 90
  · rw [char_toLower_of_upper c hu]
    omega
  · rw [char_toLower_of_not_upper c hu]
    exact h

theorem stringsToLower_of_isASCII (unicodeToLower : Char → Char) (s : String)
    (h : isASCII s = true) :
    stringsToLower unicodeToLower s = String.mk (s.data.map Char.toLower) := by
  unfold stringsToLower
  rw [if_pos h]

theorem isLowerASCII_map_toLower (s : String) (h : isASCII s = true) :
    isLowerASCII (String.mk (s.data.map Char.toLower)) = true := by
  unfold isASCII at h
  unfold isLowerASCII
  rw [List.all_eq_true] at h ⊢
  intro ch hch
  obtain ⟨x, hx, rfl⟩ := List.mem_map.1 hch
  have hx1 : x.toNat < 128 := by simpa using h x hx
  simp [char_toLower_ascii x hx1, char_isUpper_toLower x]

theorem isASCII_of_isLowerASCII (s : String) (h : isLowerASCII s = true) : isASCII s = true := by
  unfold isLowerASCII at h
  unfold isASCII
  rw [List.all_eq_true] at h ⊢
  intro ch hch
  have := h ch hch
  simp only [Bool.and_eq_true, decide_eq_true_eq] at this
  simpa using this.1

theorem map_toLower_of_isLowerASCII (s : String) (h : isLowerASCII s = true) :
    String.mk (s.data.map Char.toLower) = s := by
  unfold isLowerASCII at h
  rw [List.all_eq_true] at h
  have hmap : s.data.map Char.toLower = s.data := by
    conv_rhs => rw [← List.map_id s.data]
    apply List.map_congr_left
    intro ch hch
    have := h ch hch
    simp only [Bool.and_eq_true, decide_eq_true_eq, Bool.not_eq_true'] at this
    apply char_toLower_of_not_upper
    intro hu
    rw [← char_isUpper_iff, this.2] at hu
    cases hu
  rw [hmap]

theorem exampleDeps_newString_lower (n : Nat) :
    exampleDeps.NewString n ≠ "" ∧ isLowerASCII (exampleDeps.NewString n) = true := by
  refine ⟨(exampleDeps_newString n).1, ?_⟩
  have hdata : (exampleDeps.NewString n).data = ['u', 'u', 'i', 'd'] ++ List.replicate n 'i' := rfl
  unfold isLowerASCII
  rw [List.all_eq_true, hdata]
  intro ch hch
  rcases List.mem_append.1 hch with h | h
  · simp only [List.mem_cons, List.mem_singleton, List.not_mem_nil, or_false] at h
    rcases h with rfl | rfl | rfl | rfl <;> decide
  · rw [(List.mem_replicate.1 h).2]
    decide

theorem exampleDeps_toLower : exampleDeps.ToLower = stringsToLower Char.toLower := by
  funext s
  unfold stringsToLower
  split <;> rfl

/-! ## Theorems: repository and tag labels -/

/-- C13, as the code has it: `GetRepo` and `GetTag` return `strings.ToLower` of
a non-empty field and a freshly drawn identifier for an empty one. With
`strings.ToLower` as the Go library defines it, and generated identifiers
non-empty ASCII strings without upper-case letter: for an ASCII field the
result is a non-empty ASCII string without upper-case letter, it is the field
with `A` to `Z` lower-cased, and resolving a request whose field is that
result gives the same result. -/
theorem labels_ascii_lowercase (d : Deps) (unicodeToLower : Char → Char)
    (c : ContainerRequest) (drawn : Nat)
    (hToLower : d.ToLower = stringsToLower unicodeToLower)
    (hNew : ∀ n, d.NewString n ≠ "" ∧ isLowerASCII (d.NewString n) = true) :
    (isASCII c.FromDockerfile.Repo = true →
      (GetRepo d c drawn).1 ≠ "" ∧ isLowerASCII (GetRepo d c drawn).1 = true) ∧
    (isASCII c.FromDockerfile.Tag = true →
      (GetTag d c drawn).1 ≠ "" ∧ isLowerASCII (GetTag d c drawn).1 = true) ∧
    (c.FromDockerfile.Repo ≠ "" →
      GetRepo d c drawn = (d.ToLower c.FromDockerfile.Repo, drawn)) ∧
    (c.FromDockerfile.Tag ≠ "" →
      GetTag d c drawn = (d.ToLower c.FromDockerfile.Tag, drawn)) ∧
    (c.FromDockerfile.Repo ≠ "" → isASCII c.FromDockerfile.Repo = true →
      (GetRepo d c drawn).1 = String.mk (c.FromDockerfile.Repo.data.map Char.toLower) ∧
      (GetRepo d
        { c with FromDockerfile := { c.FromDockerfile with Repo := (GetRepo d c drawn).1 } }
        drawn).1 = (GetRepo d c drawn).1) ∧
    (c.FromDockerfile.Tag ≠ "" → isASCII c.FromDockerfile.Tag = true →
      (GetTag d c drawn).1 = String.mk (c.FromDockerfile.Tag.data.map Char.toLower) ∧
      (GetTag d
        { c with FromDockerfile := { c.FromDockerfile with Tag := (GetTag d c drawn).1 } }
        drawn).1 = (GetTag d c drawn).1) ∧
    (c.FromDockerfile.Repo = "" → GetRepo d c drawn = (d.NewString drawn, drawn + 1)) ∧
    (c.FromDockerfile.Tag = "" → GetTag d c drawn = (d.NewString drawn, drawn + 1)) := by
  have hLow : ∀ s, isASCII s = true → d.ToLower s = String.mk (s.data.map Char.toLower) := by
    intro s hs
    rw [hToLower, stringsToLower_of_isASCII _ s hs]
  have hNonempty : ∀ s, s ≠ "" → String.mk (s.data.map Char.toLower) ≠ "" := by
    intro s hs
    apply string_mk_ne_empty
    intro hnil
    exact string_data_ne_nil hs (List.map_eq_nil_iff.1 hnil)
  have hLabel : ∀ field : String, isASCII field = true →
      (if field = "" then (d.NewString drawn, drawn + 1) else (d.ToLower field, drawn)).1 ≠ "" ∧
      isLowerASCII
        (if field = "" then (d.NewString drawn, drawn + 1) else (d.ToLower field, drawn)).1
        = true := by
    intro field hfield
    by_cases h : field = ""
    · simp only [if_pos h]
      exact hNew drawn
    · simp only [if_neg h]
      rw [hLow field hfield]
      exact ⟨hNonempty field h, isLowerASCII_map_toLower field hfield⟩
  have hAgain : ∀ field : String, field ≠ "" → isASCII field = true →
      d.ToLower (d.ToLower field) = d.ToLower field ∧ d.ToLower field ≠ "" := by
    intro field h hfield
    have hlower := isLowerASCII_map_toLower field hfield
    rw [hLow field hfield, hLow _ (isASCII_of_isLowerASCII _ hlower)]
    exact ⟨map_toLower_of_isLowerASCII _ hlower, hNonempty field h⟩
  refine ⟨hLabel c.FromDockerfile.Repo, hLabel c.FromDockerfile.Tag, ?_, ?_, ?_, ?_, ?_, ?_⟩
  · intro h
    simp [GetRepo, h]
  · intro h
    simp [GetTag, h]
  · intro h hfield
    have h1 : GetRepo d c drawn = (d.ToLower c.FromDockerfile.Repo, drawn) := by
      simp [GetRepo, h]
    obtain ⟨hTwice, hne⟩ := hAgain _ h hfield
    refine ⟨by rw [h1, hLow _ hfield], ?_⟩
    rw [h1]
    simp [GetRepo, hne, hTwice]
  · intro h hfield
    have h1 : GetTag d c drawn = (d.ToLower c.FromDockerfile.Tag, drawn) := by
      simp [GetTag, h]
    obtain ⟨hTwice, hne⟩ := hAgain _ h hfield
    refine ⟨by rw [h1, hLow _ hfield], ?_⟩
    rw [h1]
    simp [GetTag, hne, hTwice]
  · intro h
    simp [GetRepo, h]
  · intro h
    simp [GetTag, h]

/-- Witness of C13 as amended: the request with `Repo = "MyRepo"` and no tag
resolves to the repository `myrepo` and to a generated tag, both non-empty
ASCII strings without upper-case letter. -/
theorem labels_ascii_lowercase_witness :
    isASCII requestMyRepo.FromDockerfile.Repo = true ∧
    isASCII requestMyRepo.FromDockerfile.Tag = true ∧
    (GetRepo exampleDeps requestMyRepo 0).1 = "myrepo" ∧
    (GetTag exampleDeps requestMyRepo 0).1 = "uuid" ∧
    ((GetRepo exampleDeps requestMyRepo 0).1 ≠ "" ∧
      isLowerASCII (GetRepo exampleDeps requestMyRepo 0).1 = true) ∧
    ((GetTag exampleDeps requestMyRepo 0).1 ≠ "" ∧
      isLowerASCII (GetTag exampleDeps requestMyRepo 0).1 = true) :=
  ⟨by decide, by decide, by decide, by decide,
    (labels_ascii_lowercase exampleDeps Char.toLower requestMyRepo 0 exampleDeps_toLower
      exampleDeps_newString_lower).1 (by decide),
    (labels_ascii_lowercase exampleDeps Char.toLower requestMyRepo 0 exampleDeps_toLower
      exampleDeps_newString_lower).2.1 (by decide)⟩

/-- Counterexample to C13 as stated: the repository and tag fields are the
mathematical bold capital A, a non-empty field. It is an upper-case letter
with no lower-case form, `strings.ToLower` returns it unchanged, and so the
labels `GetRepo` and `GetTag` return contain an upper-case letter. -/
theorem labels_keep_capital_without_lower_form :
    requestMathBold.FromDockerfile.Repo ≠ "" ∧
    isASCII requestMathBold.FromDockerfile.Repo = false ∧
    (GetRepo unicodeDeps requestMathBold 0).1 = String.mk [Char.ofNat 0x1D400] ∧
    (GetTag unicodeDeps requestMathBold 0).1 = String.mk [Char.ofNat 0x1D400] ∧
    isMathBoldCapital (Char.ofNat 0x1D400) = true ∧
    ¬ (∀ ch ∈ (GetRepo unicodeDeps requestMathBold 0).1.data, isMathBoldCapital ch = false) ∧
    ¬ (∀ ch ∈ (GetTag unicodeDeps requestMathBold 0).1.data, isMathBoldCapital ch = false) := by
  refine ⟨by decide, by decide, by decide, by decide, by decide, ?_, ?_⟩
  · intro h
    exact absurd (h (Char.ofNat 0x1D400) (by decide)) (by decide)
  · intro h
    exact absurd (h (Char.ofNat 0x1D400) (by decide)) (by decide)

/-! ## Lemmas: the OpenLDAP options -/

theorem assignEnv_eq (req : GenericContainerRequest) (env : GoMap String)
    (hEnv : req.ContainerRequest.Env = some env) (key value : String) :
    assignEnv key value req =
      some { req with
        ContainerRequest := { req.ContainerRequest with Env := some (env.store key value) } } := by
  unfold assignEnv
  rw [hEnv]

theorem assignEnv_entry (req : GenericContainerRequest) (env : GoMap String)
    (hEnv : req.ContainerRequest.Env = some env) (key value k : String) :
    envEntry (assignEnv key value req) k = if k = key then some value else env.lookup k := by
  rw [assignEnv_eq req env hEnv]
  simp only [envEntry, Option.some_bind, Option.bind]
  exact GoMap.lookup_store env key k value

theorem assignEnv_withoutEnv (req : GenericContainerRequest) (env : GoMap String)
    (hEnv : req.ContainerRequest.Env = some env) (key value : String) :
    withoutEnv (assignEnv key value req) = withoutEnv (some req) := by
  rw [assignEnv_eq req env hEnv]
  rfl

theorem assignEnv_twice_entry (req : GenericContainerRequest) (env : GoMap String)
    (hEnv : req.ContainerRequest.Env = some env) (key1 value1 key2 value2 k : String) :
    envEntry ((assignEnv key1 value1 req).bind (assignEnv key2 value2)) k =
      if k = key2 then some value2 else if k = key1 then some value1 else env.lookup k := by
  rw [assignEnv_eq req env hEnv, Option.some_bind,
    assignEnv_entry _ (env.store key1 value1) rfl, GoMap.lookup_store]

theorem assignEnv_twice_withoutEnv (req : GenericContainerRequest) (env : GoMap String)
    (hEnv : req.ContainerRequest.Env = some env) (key1 value1 key2 value2 : String) :
    withoutEnv ((assignEnv key1 value1 req).bind (assignEnv key2 value2)) =
      withoutEnv (some req) := by
  rw [assignEnv_eq req env hEnv, Option.some_bind,
    assignEnv_withoutEnv _ (env.store key1 value1) rfl]
  rfl

theorem assignEnv_commute (req : GenericContainerRequest) (env : GoMap String)
    (hEnv : req.ContainerRequest.Env = some env) (key1 value1 key2 value2 : String)
    (hne : key1 ≠ key2) :
    (∀ k, envEntry ((assignEnv key1 value1 req).bind (assignEnv key2 value2)) k =
      envEntry ((assignEnv key2 value2 req).bind (assignEnv key1 value1)) k) ∧
    withoutEnv ((assignEnv key1 value1 req).bind (assignEnv key2 value2)) =
      withoutEnv ((assignEnv key2 value2 req).bind (assignEnv key1 value1)) := by
  constructor
  · intro k
    rw [assignEnv_twice_entry req env hEnv, assignEnv_twice_entry req env hEnv]
    by_cases h1 : k = key1
    · have h2 : k ≠ key2 := fun h => hne (h1.symm.trans h)
      simp [h1, h2, hne]
    · simp [h1]
  · rw [assignEnv_twice_withoutEnv req env hEnv, assignEnv_twice_withoutEnv req env hEnv]

/-! ## Theorems: the OpenLDAP options -/

/-- C20: on a request whose `Env` map is non-nil, `WithAdminUsername(u)`,
`WithAdminPassword(p)` and `WithRoot(r)` set the entry `LDAP_ADMIN_USERNAME`,
`LDAP_ADMIN_PASSWORD`, `LDAP_ROOT` to `u`, `p`, `r` and leave every other
entry of `Env` and every other field as they were; any two of them give the
same request in either order; and applied to the request `RunContainer`
starts from, each replaces its own default (`admin`, `adminpassword`,
`dc=example,dc=org`) and keeps the other two. -/
theorem openldap_options_set_env (req : GenericContainerRequest) (env : GoMap String)
    (hEnv : req.ContainerRequest.Env = some env) (u p r : String) :
    ((∀ k, envEntry (WithAdminUsername u req) k =
        if k = "LDAP_ADMIN_USERNAME" then some u else env.lookup k) ∧
      withoutEnv (WithAdminUsername u req) = withoutEnv (some req)) ∧
    ((∀ k, envEntry (WithAdminPassword p req) k =
        if k = "LDAP_ADMIN_PASSWORD" then some p else env.lookup k) ∧
      withoutEnv (WithAdminPassword p req) = withoutEnv (some req)) ∧
    ((∀ k, envEntry (WithRoot r req) k =
        if k = "LDAP_ROOT" then some r else env.lookup k) ∧
      withoutEnv (WithRoot r req) = withoutEnv (some req)) ∧
    ((∀ k, envEntry ((WithAdminUsername u req).bind (WithAdminPassword p)) k =
        envEntry ((WithAdminPassword p req).bind (WithAdminUsername u)) k) ∧
      withoutEnv ((WithAdminUsername u req).bind (WithAdminPassword p)) =
        withoutEnv ((WithAdminPassword p req).bind (WithAdminUsername u))) ∧
    ((∀ k, envEntry ((WithAdminUsername u req).bind (WithRoot r)) k =
        envEntry ((WithRoot r req).bind (WithAdminUsername u)) k) ∧
      withoutEnv ((WithAdminUsername u req).bind (WithRoot r)) =
        withoutEnv ((WithRoot r req).bind (WithAdminUsername u))) ∧
    ((∀ k, envEntry ((WithAdminPassword p req).bind (WithRoot r)) k =
        envEntry ((WithRoot r req).bind (WithAdminPassword p)) k) ∧
      withoutEnv ((WithAdminPassword p req).bind (WithRoot r)) =
        withoutEnv ((WithRoot r req).bind (WithAdminPassword p))) ∧
    (envEntry (customizeAll defaultGenericRequest [WithAdminUsername u]) "LDAP_ADMIN_USERNAME"
        = some u ∧
      envEntry (customizeAll defaultGenericRequest [WithAdminUsername u]) "LDAP_ADMIN_PASSWORD"
        = some "adminpassword" ∧
      envEntry (customizeAll defaultGenericRequest [WithAdminUsername u]) "LDAP_ROOT"
        = some "dc=example,dc=org") ∧
    (envEntry (customizeAll defaultGenericRequest [WithAdminPassword p]) "LDAP_ADMIN_USERNAME"
        = some "admin" ∧
      envEntry (customizeAll defaultGenericRequest [WithAdminPassword p]) "LDAP_ADMIN_PASSWORD"
        = some p ∧
      envEntry (customizeAll defaultGenericRequest [WithAdminPassword p]) "LDAP_ROOT"
        = some "dc=example,dc=org") ∧
    (envEntry (customizeAll defaultGenericRequest [WithRoot r]) "LDAP_ADMIN_USERNAME"
        = some "admin" ∧
      envEntry (customizeAll defaultGenericRequest [WithRoot r]) "LDAP_ADMIN_PASSWORD"
        = some "adminpassword" ∧
      envEntry (customizeAll defaultGenericRequest [WithRoot r]) "LDAP_ROOT" = some r) := by
  have hOne : ∀ (opt : CustomizeRequestOption),
      customizeAll defaultGenericRequest [opt] = opt defaultGenericRequest := by
    intro opt
    simp only [customizeAll]
    cases opt defaultGenericRequest <;> rfl
  have hDefault : ∀ key value k,
      envEntry (assignEnv key value defaultGenericRequest) k =
        if k = key then some value
        else (GoMap.mk [("LDAP_ADMIN_USERNAME", defaultUser),
          ("LDAP_ADMIN_PASSWORD", defaultPassword), ("LDAP_ROOT", defaultRoot)]).lookup k :=
    fun key value k => assignEnv_entry defaultGenericRequest _ rfl key value k
  refine ⟨⟨fun k => assignEnv_entry req env hEnv _ _ k, assignEnv_withoutEnv req env hEnv _ _⟩,
    ⟨fun k => assignEnv_entry req env hEnv _ _ k, assignEnv_withoutEnv req env hEnv _ _⟩,
    ⟨fun k => assignEnv_entry req env hEnv _ _ k, assignEnv_withoutEnv req env hEnv _ _⟩,
    assignEnv_commute req env hEnv _ u _ p (by decide),
    assignEnv_commute req env hEnv _ u _ r (by decide),
    assignEnv_commute req env hEnv _ p _ r (by decide), ?_, ?_, ?_⟩
  · rw [hOne]
    refine ⟨?_, ?_, ?_⟩
    · rw [WithAdminUsername, hDefault, if_pos rfl]
    · rw [WithAdminUsername, hDefault, if_neg (by decide)]
      decide
    · rw [WithAdminUsername, hDefault, if_neg (by decide)]
      decide
  · rw [hOne]
    refine ⟨?_, ?_, ?_⟩
    · rw [WithAdminPassword, hDefault, if_neg (by decide)]
      decide
    · rw [WithAdminPassword, hDefault, if_pos rfl]
    · rw [WithAdminPassword, hDefault, if_neg (by decide)]
      decide
  · rw [hOne]
    refine ⟨?_, ?_, ?_⟩
    · rw [WithRoot, hDefault, if_neg (by decide)]
      decide
    · rw [WithRoot, hDefault, if_neg (by decide)]
      decide
    · rw [WithRoot, hDefault, if_pos rfl]

/-- Witness of C20: on the request `RunContainer` starts from, the user name
`ldapadmin` replaces `admin`, the password and the root keep their defaults,
and setting user name and root in either order gives the same entries. -/
theorem openldap_options_set_env_witness :
    envEntry (WithAdminUsername "ldapadmin" defaultGenericRequest) "LDAP_ADMIN_USERNAME"
      = some "ldapadmin" ∧
    envEntry (WithAdminUsername "ldapadmin" defaultGenericRequest) "LDAP_ADMIN_PASSWORD"
      = some "adminpassword" ∧
    (∀ k, envEntry ((WithAdminUsername "ldapadmin" defaultGenericRequest).bind
          (WithRoot "dc=corp")) k =
        envEntry ((WithRoot "dc=corp" defaultGenericRequest).bind
          (WithAdminUsername "ldapadmin")) k) :=
  ⟨by decide, by decide,
    (openldap_options_set_env defaultGenericRequest _ rfl "ldapadmin" "secret" "dc=corp").2.2.2.2.1.1⟩

/-! ## Theorems: what a validated request looks like -/

theorem validate_none_source_checks (c : ContainerRequest) (h : Validate c = none) :
    validateContextAndImage c = none ∧ validateContextOrImageIsSpecified c = none := by
  simp only [Validate, validationMethods, runValidation] at h
  cases h1 : validateContextAndImage c with
  | some err => rw [h1] at h; cases h
  | none =>
    cases h2 : validateContextOrImageIsSpecified c with
    | some err => rw [h1, h2] at h; cases h
    | none => exact ⟨rfl, rfl⟩

/-- C21: a request on which `Validate` returns nil has a usable source, that
is `ShouldBuildImage()` is true or `Image` is non-empty; its `Image` and its
context path are not both non-empty; and when `ShouldBuildImage()` is false
its `Image` is non-empty. -/
theorem validate_nil_has_source (c : ContainerRequest) (hValid : Validate c = none) :
    (ShouldBuildImage c = true ∨ c.Image ≠ "") ∧
    ¬ (c.Image ≠ "" ∧ c.FromDockerfile.Context ≠ "") ∧
    (ShouldBuildImage c = false → c.Image ≠ "") := by
  obtain ⟨h1, h2⟩ := validate_none_source_checks c hValid
  have hNotBoth : ¬ (c.Image ≠ "" ∧ c.FromDockerfile.Context ≠ "") := by
    rintro ⟨hImage, hContext⟩
    simp [validateContextAndImage, hImage, hContext] at h1
  have hImage : ShouldBuildImage c = false → c.Image ≠ "" := by
    intro hBuild hEmpty
    have hContext : c.FromDockerfile.Context = "" := by
      by_contra hne
      simp [ShouldBuildImage, hne] at hBuild
    have hArchive : c.FromDockerfile.ContextArchive = none := by
      cases ha : c.FromDockerfile.ContextArchive with
      | none => rfl
      | some contextArchive => simp [ShouldBuildImage, ha] at hBuild
    simp [validateContextOrImageIsSpecified, hContext, hArchive, hEmpty] at h2
  refine ⟨?_, hNotBoth, hImage⟩
  cases hBuild : ShouldBuildImage c with
  | true => exact Or.inl rfl
  | false => exact Or.inr (hImage hBuild)

/-- Witness of C21: the request with an image and one well-formed injected
bind validates; it is not built from source and its image is non-empty. The
request of scenario A validates too, with a context path and no image. -/
theorem validate_nil_has_source_witness :
    Validate (requestOneBind "a:b") = none ∧
    ShouldBuildImage (requestOneBind "a:b") = false ∧
    (requestOneBind "a:b").Image ≠ "" ∧
    Validate requestScenarioA = none ∧
    (ShouldBuildImage requestScenarioA = true ∨ requestScenarioA.Image ≠ "") ∧
    ¬ (requestScenarioA.Image ≠ "" ∧ requestScenarioA.FromDockerfile.Context ≠ "") :=
  ⟨by decide, by decide,
    (validate_nil_has_source (requestOneBind "a:b") (by decide)).2.2 (by decide),
    by decide,
    (validate_nil_has_source requestScenarioA (by decide)).1,
    (validate_nil_has_source requestScenarioA (by decide)).2.1⟩

end Testcontainers
